import Mathlib

/-!
# Load-balancer cleanup (`pkg/cleaner/loadbalancers.go`)

A shallow embedding of `LoadBalancerCleaner.Clean`, `cleanFloatingIP` and
`mustBeDeleted`.  The OpenStack SDK and the Kubernetes client are external:
they are represented by a record of operations over an arbitrary provider
state, so every statement about `Clean` holds for every behaviour of the
provider (any pattern of successes and failures).
-/

namespace cleaner

/-! ## Data model -/

/-- Go's `error` values; `nil` is `Option.none` where an `error` is returned. -/
abbrev Error := String

/-- The fields of `loadbalancers.LoadBalancer` that the cleaner reads. -/
structure LoadBalancer where
  ID : String
  VipPortID : String
  Tags : List String
  deriving DecidableEq, Repr

/-- The fields of `floatingips.FloatingIP` that the cleaner reads: the record
ID and the address (`FloatingIP`). -/
structure FloatingIP where
  ID : String
  FloatingIP : String
  deriving DecidableEq, Repr

/-- `loadbalancers.DeleteOpts`. -/
structure DeleteOpts where
  Cascade : Bool
  deriving DecidableEq, Repr

/-- `microerror.Mask`: wraps a non-nil error into a non-nil error. -/
def Mask (err : Error) : Error := err

/-- `strings.HasPrefix(s, prefix)`:
`len(s) >= len(prefix) && s[:len(prefix)] == prefix`.  Strings are sequences
of characters here; on UTF-8 text the byte-wise prefix relation of Go is the
same relation. -/
def HasPrefix (s pre : String) : Bool :=
  decide (pre.data.length ≤ s.data.length) && (s.data.take pre.data.length == pre.data)

/-- `mustBeDeleted` (lines 105-113): the loop over `lb.Tags` returning `true`
at the first tag that has the prefix `"kube_service_" + clusterTag`. -/
def mustBeDeleted (lb : LoadBalancer) (clusterTag : String) : Bool :=
  let pre := "kube_service_" ++ clusterTag
  let rec go : List String → Bool
    | [] => false
    | tag :: rest => if HasPrefix tag pre then true else go rest
  go lb.Tags

/-! ## Provider calls and traces -/

/-- The calls `Clean` makes to the outside world, with their arguments.  The
`oc` argument of the two floating-IP mutations is the cluster object `Clean`
was given, the same in every call, and is left out. -/
inductive Call where
  | NewClientFromCluster
  | NewLoadBalancerV2
  | ListAllPages
  | ExtractLoadBalancers
  | NewService
  | GetFloatingIPByPortID (portID : String)
  | DisassociateFloatingIP (ip : String)
  | DeleteFloatingIP (ip : String)
  | Delete (id : String) (opts : DeleteOpts)
  deriving DecidableEq, Repr

/-- What a call answered. -/
inductive Resp where
  | error (err : Error)
  | done
  | floatingIP (fip : Option FloatingIP)
  | loadBalancers (lbs : List LoadBalancer)
  deriving DecidableEq, Repr

/-- One issued call: `owner` is `none` for the set-up calls (lines 34-59) and
`some i` for a call made in the loop iteration over `lbList[i]`. -/
structure Event where
  owner : Option Nat
  call : Call
  resp : Resp
  deriving DecidableEq, Repr

/-- The call of the event succeeded. -/
def Event.ok (e : Event) : Bool :=
  match e.resp with
  | .error _ => false
  | _ => true

/-- The outside world: each operation takes the provider state and returns its
answer with the next state.  `π` is the type of `pagination.Page` results.
`ExtractLoadBalancers` only decodes a page already fetched. -/
structure Provider (σ π : Type) where
  NewClientFromCluster : σ → Except Error Unit × σ
  NewLoadBalancerV2 : σ → Except Error Unit × σ
  ListAllPages : σ → Except Error π × σ
  ExtractLoadBalancers : π → Except Error (List LoadBalancer)
  NewService : σ → Except Error Unit × σ
  GetFloatingIPByPortID : σ → String → Except Error (Option FloatingIP) × σ
  DisassociateFloatingIP : σ → String → Except Error Unit × σ
  DeleteFloatingIP : σ → String → Except Error Unit × σ
  Delete : σ → String → DeleteOpts → Except Error Unit × σ

/-- The result of running a piece of the cleaner: the returned `error`
(`none` is `nil`), the provider state reached, and the calls issued, oldest
first. -/
structure Outcome (σ : Type) where
  err : Option Error
  state : σ
  trace : List Event

/-! ## The cleaner -/

/-- `cleanFloatingIP` (lines 95-103), called in loop iteration `i`. -/
def cleanFloatingIP {σ π : Type} (P : Provider σ π) (i : Nat) (fip : FloatingIP) (s : σ) :
    Outcome σ :=
  match P.DisassociateFloatingIP s fip.FloatingIP with
  | (.error err, s1) =>
    ⟨some (Mask err), s1, [⟨some i, .DisassociateFloatingIP fip.FloatingIP, .error err⟩]⟩
  | (.ok _, s1) =>
    match P.DeleteFloatingIP s1 fip.FloatingIP with
    | (.error err, s2) =>
      ⟨some (Mask err), s2,
        [⟨some i, .DisassociateFloatingIP fip.FloatingIP, .done⟩,
         ⟨some i, .DeleteFloatingIP fip.FloatingIP, .error err⟩]⟩
    | (.ok _, s2) =>
      ⟨none, s2,
        [⟨some i, .DisassociateFloatingIP fip.FloatingIP, .done⟩,
         ⟨some i, .DeleteFloatingIP fip.FloatingIP, .done⟩]⟩

/-- Lines 70-83 of the loop body: the floating-IP part for a selected load
balancer. -/
def cleanVip {σ π : Type} (P : Provider σ π) (i : Nat) (lb : LoadBalancer) (s : σ) :
    Outcome σ :=
  if lb.VipPortID != "" then
    match P.GetFloatingIPByPortID s lb.VipPortID with
    | (.error err, s1) =>
      ⟨some (Mask err), s1, [⟨some i, .GetFloatingIPByPortID lb.VipPortID, .error err⟩]⟩
    | (.ok none, s1) =>
      ⟨none, s1, [⟨some i, .GetFloatingIPByPortID lb.VipPortID, .floatingIP none⟩]⟩
    | (.ok (some fip), s1) =>
      if fip.FloatingIP != "" then
        match cleanFloatingIP P i fip s1 with
        | ⟨some err, s2, tr⟩ =>
          ⟨some (Mask err), s2,
            ⟨some i, .GetFloatingIPByPortID lb.VipPortID, .floatingIP (some fip)⟩ :: tr⟩
        | ⟨none, s2, tr⟩ =>
          ⟨none, s2,
            ⟨some i, .GetFloatingIPByPortID lb.VipPortID, .floatingIP (some fip)⟩ :: tr⟩
      else
        ⟨none, s1, [⟨some i, .GetFloatingIPByPortID lb.VipPortID, .floatingIP (some fip)⟩]⟩
  else
    ⟨none, s, []⟩

/-- Lines 66-89: the loop body for a load balancer that passed the
`mustBeDeleted` test. -/
def loopBody {σ π : Type} (P : Provider σ π) (i : Nat) (lb : LoadBalancer) (s : σ) :
    Outcome σ :=
  let deleteOpts : DeleteOpts := { Cascade := true }
  match cleanVip P i lb s with
  | ⟨some err, s1, tr⟩ => ⟨some err, s1, tr⟩
  | ⟨none, s1, tr⟩ =>
    match P.Delete s1 lb.ID deleteOpts with
    | (.error err, s2) =>
      ⟨some (Mask err), s2, tr ++ [⟨some i, .Delete lb.ID deleteOpts, .error err⟩]⟩
    | (.ok _, s2) =>
      ⟨none, s2, tr ++ [⟨some i, .Delete lb.ID deleteOpts, .done⟩]⟩

/-- Lines 61-92: `for _, lb := range lbList`, from index `i` on.  The index,
which the source discards, only labels the recorded calls. -/
def cleanLoop {σ π : Type} (P : Provider σ π) (clusterTag : String) :
    Nat → List LoadBalancer → σ → Outcome σ
  | _, [], s => ⟨none, s, []⟩
  | i, lb :: rest, s =>
    if !mustBeDeleted lb clusterTag then
      cleanLoop P clusterTag (i + 1) rest s
    else
      match loopBody P i lb s with
      | ⟨some err, s1, tr⟩ => ⟨some err, s1, tr⟩
      | ⟨none, s1, tr⟩ =>
        match cleanLoop P clusterTag (i + 1) rest s1 with
        | ⟨r, s2, tr2⟩ => ⟨r, s2, tr ++ tr2⟩

/-- `LoadBalancerCleaner.Clean` (lines 31-93).  The receiver's Kubernetes
client and the cluster object are part of the provider `P`; logging has no
effect on the control flow and is left out. -/
def LoadBalancerCleaner.Clean {σ π : Type} (P : Provider σ π) (clusterTag : String) (s : σ) :
    Outcome σ :=
  match P.NewClientFromCluster s with
  | (.error err, s1) => ⟨some (Mask err), s1, [⟨none, .NewClientFromCluster, .error err⟩]⟩
  | (.ok _, s1) =>
  match P.NewLoadBalancerV2 s1 with
  | (.error err, s2) =>
    ⟨some (Mask err), s2,
      [⟨none, .NewClientFromCluster, .done⟩, ⟨none, .NewLoadBalancerV2, .error err⟩]⟩
  | (.ok _, s2) =>
  match P.ListAllPages s2 with
  | (.error err, s3) =>
    ⟨some (Mask err), s3,
      [⟨none, .NewClientFromCluster, .done⟩, ⟨none, .NewLoadBalancerV2, .done⟩,
       ⟨none, .ListAllPages, .error err⟩]⟩
  | (.ok allPages, s3) =>
  match P.ExtractLoadBalancers allPages with
  | .error err =>
    ⟨some (Mask err), s3,
      [⟨none, .NewClientFromCluster, .done⟩, ⟨none, .NewLoadBalancerV2, .done⟩,
       ⟨none, .ListAllPages, .done⟩, ⟨none, .ExtractLoadBalancers, .error err⟩]⟩
  | .ok lbList =>
  match P.NewService s3 with
  | (.error err, s4) =>
    ⟨some (Mask err), s4,
      [⟨none, .NewClientFromCluster, .done⟩, ⟨none, .NewLoadBalancerV2, .done⟩,
       ⟨none, .ListAllPages, .done⟩, ⟨none, .ExtractLoadBalancers, .loadBalancers lbList⟩,
       ⟨none, .NewService, .error err⟩]⟩
  | (.ok _, s4) =>
    match cleanLoop P clusterTag 0 lbList s4 with
    | ⟨r, s5, tr⟩ =>
      ⟨r, s5,
        [⟨none, .NewClientFromCluster, .done⟩, ⟨none, .NewLoadBalancerV2, .done⟩,
         ⟨none, .ListAllPages, .done⟩, ⟨none, .ExtractLoadBalancers, .loadBalancers lbList⟩,
         ⟨none, .NewService, .done⟩] ++ tr⟩

/-! ## A small in-memory provider

Used to run the cleaner on concrete inventories.  It is one provider among
all those the theorems quantify over. -/

/-- Provider state: the load balancers, the floating IPs with the port each is
attached to (`""` when detached), and the calls the provider rejects. -/
structure Cloud where
  lbs : List LoadBalancer
  fips : List (String × FloatingIP)
  broken : List Call
  deriving DecidableEq, Repr

/-- Answer of a call without result: an error when the call is rejected (the
state is then left as it was), else the given next state. -/
def Cloud.reply (c : Cloud) (call : Call) (next : Cloud) : Except Error Unit × Cloud :=
  if call ∈ c.broken then (.error "rejected", c) else (.ok (), next)

/-- The in-memory provider: listing returns the current load balancers, the
lookup returns the floating IP attached to the port, a successful delete
removes every load balancer with the given ID. -/
def Cloud.provider : Provider Cloud (List LoadBalancer) where
  NewClientFromCluster := fun c => c.reply .NewClientFromCluster c
  NewLoadBalancerV2 := fun c => c.reply .NewLoadBalancerV2 c
  ListAllPages := fun c =>
    if Call.ListAllPages ∈ c.broken then (.error "rejected", c) else (.ok c.lbs, c)
  ExtractLoadBalancers := fun page => .ok page
  NewService := fun c => c.reply .NewService c
  GetFloatingIPByPortID := fun c portID =>
    if Call.GetFloatingIPByPortID portID ∈ c.broken then (.error "rejected", c)
    else (.ok ((c.fips.find? (fun x => x.1 == portID)).map (fun x => x.2)), c)
  DisassociateFloatingIP := fun c ip =>
    c.reply (.DisassociateFloatingIP ip)
      { c with fips := c.fips.map (fun x => if x.2.FloatingIP == ip then ("", x.2) else x) }
  DeleteFloatingIP := fun c ip =>
    c.reply (.DeleteFloatingIP ip)
      { c with fips := c.fips.filter (fun x => x.2.FloatingIP != ip) }
  Delete := fun c id opts =>
    c.reply (.Delete id opts) { c with lbs := c.lbs.filter (fun lb => lb.ID != id) }

/-- A provider like the in-memory one, except that a rejected disassociation
has already detached the floating IP when it answers the error. -/
def Cloud.leaky : Provider Cloud (List LoadBalancer) :=
  { Cloud.provider with
    DisassociateFloatingIP := fun c ip =>
      let next : Cloud :=
        { c with fips := c.fips.map (fun x => if x.2.FloatingIP == ip then ("", x.2) else x) }
      if Call.DisassociateFloatingIP ip ∈ c.broken then (.error "rejected", next)
      else (.ok (), next) }

/-! ## Vocabulary of the statements -/

/-- The answer of a call without result: done or an error. -/
def Resp.IsAck (r : Resp) : Prop := r = .done ∨ ∃ err, r = .error err

/-- Fail-fast runs: either `nil` is returned and every call succeeded, or an
error is returned, the last call failed and every call before it succeeded. -/
def FailFast {σ : Type} (r : Outcome σ) : Prop :=
  (r.err = none ∧ ∀ e ∈ r.trace, e.ok = true) ∨
  (r.err ≠ none ∧ ∃ pre e, r.trace = pre ++ [e] ∧ (∀ x ∈ pre, x.ok = true) ∧ e.ok = false)

/-- The five set-up calls, all answered, with the listed inventory. -/
def setupDone (lbList : List LoadBalancer) : List Event :=
  [⟨none, .NewClientFromCluster, .done⟩, ⟨none, .NewLoadBalancerV2, .done⟩,
   ⟨none, .ListAllPages, .done⟩, ⟨none, .ExtractLoadBalancers, .loadBalancers lbList⟩,
   ⟨none, .NewService, .done⟩]

/-- The set-up calls up to a failing one. -/
def setupFailures (err : Error) : List (List Event) :=
  [ [⟨none, .NewClientFromCluster, .error err⟩],
    [⟨none, .NewClientFromCluster, .done⟩, ⟨none, .NewLoadBalancerV2, .error err⟩],
    [⟨none, .NewClientFromCluster, .done⟩, ⟨none, .NewLoadBalancerV2, .done⟩,
     ⟨none, .ListAllPages, .error err⟩],
    [⟨none, .NewClientFromCluster, .done⟩, ⟨none, .NewLoadBalancerV2, .done⟩,
     ⟨none, .ListAllPages, .done⟩, ⟨none, .ExtractLoadBalancers, .error err⟩] ]


/-- The inventory `Clean` listed: the answer recorded for `ExtractLoadBalancers`. -/
def Listed (tr : List Event) (lbList : List LoadBalancer) : Prop :=
  (⟨none, .ExtractLoadBalancers, .loadBalancers lbList⟩ : Event) ∈ tr

instance (tr : List Event) (lbList : List LoadBalancer) : Decidable (Listed tr lbList) := by
  unfold Listed
  infer_instance

/-- The calls made in the loop iteration over `lbList[j]`, in the order issued. -/
def segment (tr : List Event) (j : Nat) : List Event :=
  tr.filter (fun e => e.owner == some j)

/-- The loop reaches the iteration over `lbList[j]`: the set-up went through
(its last call, `NewService`, was answered) and no call of an earlier
iteration failed.  Nothing is said about the calls of iteration `j` itself. -/
def Reached (tr : List Event) (j : Nat) : Prop :=
  (⟨none, .NewService, .done⟩ : Event) ∈ tr ∧
  ∀ e ∈ tr, ∀ k < j, e.owner = some k → e.ok = true

instance (tr : List Event) (j : Nat) : Decidable (Reached tr j) := by
  unfold Reached
  infer_instance

/-- The IDs of the load-balancer delete calls of a trace, in the order issued. -/
def deletedIDs (tr : List Event) : List String :=
  tr.filterMap (fun e => match e.call with
    | .Delete id _ => some id
    | _ => none)

/-- The calls made for one load balancer: lookup, floating-IP mutations and
load-balancer delete (the others are set-up calls). -/
def Call.perLB : Call → Bool
  | .GetFloatingIPByPortID _ => true
  | .DisassociateFloatingIP _ => true
  | .DeleteFloatingIP _ => true
  | .Delete _ _ => true
  | _ => false

/-- The call of `e` is made on behalf of `lb`: a lookup of its port, a delete
of its ID, or a mutation of the floating IP that the lookup of its port
returned in the same iteration. -/
def OnBehalf (lb : LoadBalancer) (tr : List Event) (e : Event) : Prop :=
  match e.call with
  | .GetFloatingIPByPortID portID => portID = lb.VipPortID
  | .Delete id _ => id = lb.ID
  | .DisassociateFloatingIP ip =>
    ∃ fip : FloatingIP, fip.FloatingIP = ip ∧
      (⟨e.owner, .GetFloatingIPByPortID lb.VipPortID, .floatingIP (some fip)⟩ : Event) ∈ tr
  | .DeleteFloatingIP ip =>
    ∃ fip : FloatingIP, fip.FloatingIP = ip ∧
      (⟨e.owner, .GetFloatingIPByPortID lb.VipPortID, .floatingIP (some fip)⟩ : Event) ∈ tr
  | _ => False

/-- The provider state after a call, whatever it answered.  Decoding a page
does not touch the provider. -/
def Provider.apply {σ π : Type} (P : Provider σ π) (s : σ) : Call → σ
  | .NewClientFromCluster => (P.NewClientFromCluster s).2
  | .NewLoadBalancerV2 => (P.NewLoadBalancerV2 s).2
  | .ListAllPages => (P.ListAllPages s).2
  | .ExtractLoadBalancers => s
  | .NewService => (P.NewService s).2
  | .GetFloatingIPByPortID portID => (P.GetFloatingIPByPortID s portID).2
  | .DisassociateFloatingIP ip => (P.DisassociateFloatingIP s ip).2
  | .DeleteFloatingIP ip => (P.DeleteFloatingIP s ip).2
  | .Delete id opts => (P.Delete s id opts).2

/-- The provider state reached from `s` by a sequence of calls. -/
def Provider.replay {σ π : Type} (P : Provider σ π) (s : σ) (calls : List Call) : σ :=
  calls.foldl P.apply s

/-- A provider whose failing calls leave its state as it was. -/
def Provider.FailuresPure {σ π : Type} (P : Provider σ π) : Prop :=
  (∀ s err s', P.NewClientFromCluster s = (.error err, s') → s' = s) ∧
  (∀ s err s', P.NewLoadBalancerV2 s = (.error err, s') → s' = s) ∧
  (∀ s err s', P.ListAllPages s = (.error err, s') → s' = s) ∧
  (∀ s err s', P.NewService s = (.error err, s') → s' = s) ∧
  (∀ s portID err s', P.GetFloatingIPByPortID s portID = (.error err, s') → s' = s) ∧
  (∀ s ip err s', P.DisassociateFloatingIP s ip = (.error err, s') → s' = s) ∧
  (∀ s ip err s', P.DeleteFloatingIP s ip = (.error err, s') → s' = s) ∧
  (∀ s id opts err s', P.Delete s id opts = (.error err, s') → s' = s)

/-- A provider with an inventory `inv` of load balancers in which listing
returns the inventory, a successful delete removes the load balancers with the
given ID, and no call adds a load balancer. -/
structure Provider.RemovesDeleted {σ π : Type} (P : Provider σ π)
    (inv : σ → List LoadBalancer) : Prop where
  list : ∀ s allPages s' lbList, P.ListAllPages s = (.ok allPages, s') →
    P.ExtractLoadBalancers allPages = .ok lbList → lbList = inv s
  delete : ∀ s id opts s', P.Delete s id opts = (.ok (), s') →
    ∀ x ∈ inv s', x ∈ inv s ∧ x.ID ≠ id
  shrink : ∀ s call, ∀ x ∈ inv (P.apply s call), x ∈ inv s

/-! ## Concrete inventories -/

/-- Three load balancers, the first and the third tagged for cluster `c1`, the
first with a floating IP on its VIP port; nothing is rejected. -/
def healthyCloud : Cloud :=
  { lbs := [⟨"a", "p1", ["kube_service_c1_default_web"]⟩, ⟨"b", "", ["other"]⟩,
            ⟨"c", "", ["kube_service_c1"]⟩],
    fips := [("p1", ⟨"f1", "10.0.0.1"⟩)],
    broken := [] }

/-- The same inventory with a provider that rejects the delete of `c`. -/
def demoCloud : Cloud :=
  { healthyCloud with broken := [.Delete "c" ⟨true⟩] }

/-- An inventory in which two listed entries carry the same ID. -/
def twinCloud : Cloud :=
  { lbs := [⟨"a", "", ["kube_service_c1"]⟩, ⟨"a", "", ["kube_service_c1"]⟩],
    fips := [],
    broken := [] }

/-- Two selected load balancers with a VIP port; the provider rejects the
disassociation of the first one's floating IP. -/
def stuckCloud : Cloud :=
  { lbs := [⟨"a", "p1", ["kube_service_c1"]⟩, ⟨"c", "p2", ["kube_service_c1"]⟩],
    fips := [("p1", ⟨"f1", "10.0.0.1"⟩)],
    broken := [.DisassociateFloatingIP "10.0.0.1"] }
/-! ## Selection by tag -/

theorem HasPrefix_iff (s pre : String) :
    HasPrefix s pre = true ↔ ∃ rest : String, s = pre ++ rest := by
  unfold HasPrefix
  constructor
  · intro h
    simp only [Bool.and_eq_true, decide_eq_true_eq, beq_iff_eq] at h
    refine ⟨⟨s.data.drop pre.data.length⟩, ?_⟩
    apply String.ext
    simp only [String.data_append]
    conv_lhs => rw [← List.take_append_drop pre.data.length s.data]
    rw [h.2]
  · rintro ⟨rest, rfl⟩
    simp

theorem mustBeDeleted_go_iff (pre : String) (tags : List String) :
    mustBeDeleted.go pre tags = true ↔ ∃ tag ∈ tags, HasPrefix tag pre = true := by
  induction tags with
  | nil => simp [mustBeDeleted.go]
  | cons t ts ih =>
    by_cases h : HasPrefix t pre = true
    · simp [mustBeDeleted.go, h]
    · simp [mustBeDeleted.go, h, ih]

theorem mustBeDeleted_iff (lb : LoadBalancer) (clusterTag : String) :
    mustBeDeleted lb clusterTag = true ↔
      ∃ tag ∈ lb.Tags, ∃ rest : String, tag = "kube_service_" ++ clusterTag ++ rest := by
  unfold mustBeDeleted
  simp only [mustBeDeleted_go_iff, HasPrefix_iff]

/-! ## The calls of one loop iteration -/

/-- The possible call sequences of one loop iteration, by what the provider
answered. -/
theorem loopBody_trace_cases {σ π : Type} (P : Provider σ π) (i : Nat) (lb : LoadBalancer)
    (s : σ) :
    (lb.VipPortID = "" ∧
      ∃ r, r.IsAck ∧ (loopBody P i lb s).trace = [⟨some i, .Delete lb.ID ⟨true⟩, r⟩]) ∨
    (lb.VipPortID ≠ "" ∧
      ∃ err, (loopBody P i lb s).trace =
        [⟨some i, .GetFloatingIPByPortID lb.VipPortID, .error err⟩]) ∨
    (lb.VipPortID ≠ "" ∧
      ∃ f r, (f = none ∨ ∃ fip, f = some fip ∧ fip.FloatingIP = "") ∧ r.IsAck ∧
        (loopBody P i lb s).trace =
          [⟨some i, .GetFloatingIPByPortID lb.VipPortID, .floatingIP f⟩,
           ⟨some i, .Delete lb.ID ⟨true⟩, r⟩]) ∨
    (lb.VipPortID ≠ "" ∧
      ∃ fip, fip.FloatingIP ≠ "" ∧
        ((∃ err, (loopBody P i lb s).trace =
          [⟨some i, .GetFloatingIPByPortID lb.VipPortID, .floatingIP (some fip)⟩,
           ⟨some i, .DisassociateFloatingIP fip.FloatingIP, .error err⟩]) ∨
         (∃ err, (loopBody P i lb s).trace =
          [⟨some i, .GetFloatingIPByPortID lb.VipPortID, .floatingIP (some fip)⟩,
           ⟨some i, .DisassociateFloatingIP fip.FloatingIP, .done⟩,
           ⟨some i, .DeleteFloatingIP fip.FloatingIP, .error err⟩]) ∨
         (∃ r, r.IsAck ∧ (loopBody P i lb s).trace =
          [⟨some i, .GetFloatingIPByPortID lb.VipPortID, .floatingIP (some fip)⟩,
           ⟨some i, .DisassociateFloatingIP fip.FloatingIP, .done⟩,
           ⟨some i, .DeleteFloatingIP fip.FloatingIP, .done⟩,
           ⟨some i, .Delete lb.ID ⟨true⟩, r⟩]))) := by
  unfold loopBody cleanVip cleanFloatingIP
  by_cases hp : lb.VipPortID = ""
  · left
    refine ⟨hp, ?_⟩
    simp only [hp, bne_self_eq_false, Bool.false_eq_true, if_false]
    split <;> simp [Resp.IsAck]
  · right
    simp only [bne_iff_ne, ne_eq, hp, not_false_eq_true, if_true, false_and, false_or, true_and]
    rcases hG : P.GetFloatingIPByPortID s lb.VipPortID with ⟨_ | f, s1⟩
    · simp
    · right
      rcases f with _ | fip
      · left
        simp only
        rcases hD : P.Delete s1 lb.ID ⟨true⟩ with ⟨_ | _, s2⟩ <;> simp [Resp.IsAck]
      · by_cases ha : fip.FloatingIP = ""
        · left
          simp only [ha, not_true_eq_false, if_false]
          rcases hD : P.Delete s1 lb.ID ⟨true⟩ with ⟨_ | _, s2⟩ <;> simp [Resp.IsAck, ha]
        · right
          refine ⟨fip, ha, ?_⟩
          simp only [ha, not_false_eq_true, if_true]
          rcases hA : P.DisassociateFloatingIP s1 fip.FloatingIP with ⟨_ | _, s2⟩
          · simp
          · simp only
            rcases hB : P.DeleteFloatingIP s2 fip.FloatingIP with ⟨_ | _, s3⟩
            · simp
            · simp only
              rcases hD : P.Delete s3 lb.ID ⟨true⟩ with ⟨_ | _, s4⟩ <;> simp [Resp.IsAck]

/-- An iteration returns `nil` exactly when every call it made succeeded. -/
theorem loopBody_err_none_iff {σ π : Type} (P : Provider σ π) (i : Nat) (lb : LoadBalancer)
    (s : σ) :
    (loopBody P i lb s).err = none ↔ ∀ e ∈ (loopBody P i lb s).trace, e.ok = true := by
  unfold loopBody cleanVip cleanFloatingIP
  by_cases hp : lb.VipPortID = ""
  · simp only [hp, bne_self_eq_false, Bool.false_eq_true, if_false]
    rcases hD : P.Delete s lb.ID ⟨true⟩ with ⟨_ | _, s2⟩ <;> simp [Event.ok]
  · simp only [bne_iff_ne, ne_eq, hp, not_false_eq_true, if_true]
    rcases hG : P.GetFloatingIPByPortID s lb.VipPortID with ⟨_ | f, s1⟩
    · simp [Event.ok]
    · rcases f with _ | fip
      · simp only
        rcases hD : P.Delete s1 lb.ID ⟨true⟩ with ⟨_ | _, s2⟩ <;> simp [Event.ok]
      · by_cases ha : fip.FloatingIP = ""
        · simp only [ha, not_true_eq_false, if_false]
          rcases hD : P.Delete s1 lb.ID ⟨true⟩ with ⟨_ | _, s2⟩ <;> simp [Event.ok]
        · simp only [ha, not_false_eq_true, if_true]
          rcases hA : P.DisassociateFloatingIP s1 fip.FloatingIP with ⟨_ | _, s2⟩
          · simp [Event.ok]
          · simp only
            rcases hB : P.DeleteFloatingIP s2 fip.FloatingIP with ⟨_ | _, s3⟩
            · simp [Event.ok]
            · simp only
              rcases hD : P.Delete s3 lb.ID ⟨true⟩ with ⟨_ | _, s4⟩ <;> simp [Event.ok]

theorem loopBody_failFast {σ π : Type} (P : Provider σ π) (i : Nat) (lb : LoadBalancer)
    (s : σ) : FailFast (loopBody P i lb s) := by
  unfold FailFast
  by_cases h : (loopBody P i lb s).err = none
  · exact Or.inl ⟨h, (loopBody_err_none_iff P i lb s).1 h⟩
  · right
    refine ⟨h, ?_⟩
    have hne := mt (loopBody_err_none_iff P i lb s).2 h
    rcases loopBody_trace_cases P i lb s with ⟨-, r, hr, ht⟩ | ⟨-, err, ht⟩ |
      ⟨-, f, r, -, hr, ht⟩ | ⟨-, fip, -, ⟨err, ht⟩ | ⟨err, ht⟩ | ⟨r, hr, ht⟩⟩
    · rw [ht] at hne ⊢
      rcases hr with rfl | ⟨err, rfl⟩
      · simp [Event.ok] at hne
      · exact ⟨[], _, rfl, by simp, rfl⟩
    · rw [ht]
      exact ⟨[], _, rfl, by simp, rfl⟩
    · rw [ht] at hne ⊢
      rcases hr with rfl | ⟨err, rfl⟩
      · simp [Event.ok] at hne
      · exact ⟨[_], _, rfl, by simp [Event.ok], rfl⟩
    · rw [ht]
      exact ⟨[_], _, rfl, by simp [Event.ok], rfl⟩
    · rw [ht]
      exact ⟨[_, _], _, rfl, by simp [Event.ok], rfl⟩
    · rw [ht] at hne ⊢
      rcases hr with rfl | ⟨err, rfl⟩
      · simp [Event.ok] at hne
      · exact ⟨[_, _, _], _, rfl, by simp [Event.ok], rfl⟩

/-- Every call of an iteration is recorded under the iteration's index. -/
theorem loopBody_owner {σ π : Type} (P : Provider σ π) (i : Nat) (lb : LoadBalancer)
    (s : σ) : ∀ e ∈ (loopBody P i lb s).trace, e.owner = some i := by
  rcases loopBody_trace_cases P i lb s with ⟨-, r, hr, ht⟩ | ⟨-, err, ht⟩ |
    ⟨-, f, r, -, hr, ht⟩ | ⟨-, fip, -, ⟨err, ht⟩ | ⟨err, ht⟩ | ⟨r, hr, ht⟩⟩ <;>
  · rw [ht]
    simp

/-! ## Unfolding the loop and the set-up -/

/-- One step of the loop: the load balancer is skipped, or its iteration
fails and ends the loop, or it succeeds and the loop goes on. -/
theorem cleanLoop_cons_cases {σ π : Type} (P : Provider σ π) (clusterTag : String) (i : Nat)
    (lb : LoadBalancer) (rest : List LoadBalancer) (s : σ) :
    (mustBeDeleted lb clusterTag = false ∧
      cleanLoop P clusterTag i (lb :: rest) s = cleanLoop P clusterTag (i + 1) rest s) ∨
    (mustBeDeleted lb clusterTag = true ∧ (loopBody P i lb s).err ≠ none ∧
      cleanLoop P clusterTag i (lb :: rest) s = loopBody P i lb s) ∨
    (mustBeDeleted lb clusterTag = true ∧ (loopBody P i lb s).err = none ∧
      cleanLoop P clusterTag i (lb :: rest) s =
        ⟨(cleanLoop P clusterTag (i + 1) rest (loopBody P i lb s).state).err,
         (cleanLoop P clusterTag (i + 1) rest (loopBody P i lb s).state).state,
         (loopBody P i lb s).trace ++
           (cleanLoop P clusterTag (i + 1) rest (loopBody P i lb s).state).trace⟩) := by
  by_cases hm : mustBeDeleted lb clusterTag = true
  · right
    rcases hb : loopBody P i lb s with ⟨_ | err, s1, tr⟩
    · right
      simp [cleanLoop, hm, hb]
    · left
      simp [cleanLoop, hm, hb]
  · left
    simp only [Bool.not_eq_true] at hm
    simp [cleanLoop, hm]

/-- `Clean` either stops in the set-up, or lists an inventory and runs the loop
over it. -/
theorem Clean_cases {σ π : Type} (P : Provider σ π) (clusterTag : String) (s : σ) :
    (∃ err, (LoadBalancerCleaner.Clean P clusterTag s).err = some (Mask err) ∧
      ((LoadBalancerCleaner.Clean P clusterTag s).trace ∈ setupFailures err ∨
       ∃ lbList, (LoadBalancerCleaner.Clean P clusterTag s).trace =
         (setupDone lbList).dropLast ++ [⟨none, .NewService, .error err⟩])) ∨
    (∃ s1 s2 allPages s3 lbList s4,
      P.NewClientFromCluster s = (.ok (), s1) ∧
      P.NewLoadBalancerV2 s1 = (.ok (), s2) ∧
      P.ListAllPages s2 = (.ok allPages, s3) ∧
      P.ExtractLoadBalancers allPages = .ok lbList ∧
      P.NewService s3 = (.ok (), s4) ∧
      LoadBalancerCleaner.Clean P clusterTag s =
        ⟨(cleanLoop P clusterTag 0 lbList s4).err, (cleanLoop P clusterTag 0 lbList s4).state,
         setupDone lbList ++ (cleanLoop P clusterTag 0 lbList s4).trace⟩) := by
  unfold LoadBalancerCleaner.Clean
  rcases h1 : P.NewClientFromCluster s with ⟨_ | _, s1⟩
  · left; exact ⟨_, rfl, by simp [setupFailures]⟩
  simp only
  rcases h2 : P.NewLoadBalancerV2 s1 with ⟨_ | _, s2⟩
  · left; exact ⟨_, rfl, by simp [setupFailures]⟩
  simp only
  rcases h3 : P.ListAllPages s2 with ⟨_ | allPages, s3⟩
  · left; exact ⟨_, rfl, by simp [setupFailures]⟩
  simp only
  rcases h4 : P.ExtractLoadBalancers allPages with _ | lbList
  · left; exact ⟨_, rfl, by simp [setupFailures]⟩
  simp only
  rcases h5 : P.NewService s3 with ⟨_ | _, s4⟩
  · left; exact ⟨_, rfl, Or.inr ⟨lbList, by simp [setupDone]⟩⟩
  · right
    exact ⟨s1, s2, allPages, s3, lbList, s4, rfl, h2, h3, h4, h5, by simp [setupDone]⟩

/-! ## Properties of the loop -/

/-- Every call of the loop is a call of the iteration over some selected
element of the list, and the loop issued all the calls of that iteration. -/
theorem cleanLoop_mem {σ π : Type} (P : Provider σ π) (clusterTag : String)
    (L : List LoadBalancer) :
    ∀ (i : Nat) (s : σ), ∀ e ∈ (cleanLoop P clusterTag i L s).trace,
      ∃ k lb s', L[k]? = some lb ∧ mustBeDeleted lb clusterTag = true ∧
        e ∈ (loopBody P (i + k) lb s').trace ∧
        (loopBody P (i + k) lb s').trace ⊆ (cleanLoop P clusterTag i L s).trace := by
  induction L with
  | nil => intro i s e he; simp [cleanLoop] at he
  | cons lb rest ih =>
    intro i s e he
    have shift : ∀ k, i + (k + 1) = i + 1 + k := fun k => by omega
    rcases cleanLoop_cons_cases P clusterTag i lb rest s with ⟨-, h⟩ | ⟨hm, -, h⟩ | ⟨hm, -, h⟩
    · rw [h] at he ⊢
      obtain ⟨k, lb', s', hk, hm, hmem, hsub⟩ := ih (i + 1) s e he
      refine ⟨k + 1, lb', s', by simpa using hk, hm, ?_, ?_⟩
      · rw [shift]; exact hmem
      · rw [shift]; exact hsub
    · rw [h] at he ⊢
      exact ⟨0, lb, s, by simp, hm, by simpa using he, by simp⟩
    · rw [h] at he ⊢
      simp only [List.mem_append] at he
      rcases he with he | he
      · exact ⟨0, lb, s, by simp, hm, by simpa using he, by simp⟩
      · obtain ⟨k, lb', s', hk, hm, hmem, hsub⟩ := ih (i + 1) _ e he
        refine ⟨k + 1, lb', s', by simpa using hk, hm, ?_, ?_⟩
        · rw [shift]; exact hmem
        · rw [shift]
          exact fun x hx => List.mem_append_right _ (hsub hx)

/-- The calls of the loop from index `i` on are recorded under indices from
`i` on. -/
theorem cleanLoop_owner_ge {σ π : Type} (P : Provider σ π) (clusterTag : String)
    (L : List LoadBalancer) (i : Nat) (s : σ) :
    ∀ e ∈ (cleanLoop P clusterTag i L s).trace, ∃ m, e.owner = some m ∧ i ≤ m := by
  intro e he
  obtain ⟨k, lb, s', -, -, hmem, -⟩ := cleanLoop_mem P clusterTag L i s e he
  exact ⟨i + k, loopBody_owner P (i + k) lb s' e hmem, by omega⟩

/-- The calls recorded under index `j`: none, or those of the iteration over
the selected element at that index. -/
theorem cleanLoop_segment {σ π : Type} (P : Provider σ π) (clusterTag : String)
    (L : List LoadBalancer) :
    ∀ (i : Nat) (s : σ) (j : Nat),
      segment (cleanLoop P clusterTag i L s).trace j = [] ∨
      ∃ k lb s', j = i + k ∧ L[k]? = some lb ∧ mustBeDeleted lb clusterTag = true ∧
        segment (cleanLoop P clusterTag i L s).trace j = (loopBody P j lb s').trace := by
  induction L with
  | nil => intro i s j; left; simp [cleanLoop, segment]
  | cons lb rest ih =>
    intro i s j
    have hbody : ∀ j, segment (loopBody P i lb s).trace j =
        if j = i then (loopBody P i lb s).trace else [] := by
      intro j
      unfold segment
      by_cases hj : j = i
      · subst hj
        simp only [if_true]
        rw [List.filter_eq_self]
        intro e he
        simp [loopBody_owner P j lb s e he]
      · simp only [hj, if_false]
        rw [List.filter_eq_nil_iff]
        intro e he
        simp [loopBody_owner P i lb s e he, Ne.symm hj]
    have hrest : ∀ t, (∃ k lb' s', j = i + 1 + k ∧ rest[k]? = some lb' ∧
          mustBeDeleted lb' clusterTag = true ∧
          segment (cleanLoop P clusterTag (i + 1) rest t).trace j = (loopBody P j lb' s').trace) →
        ∃ k lb' s', j = i + k ∧ (lb :: rest)[k]? = some lb' ∧
          mustBeDeleted lb' clusterTag = true ∧
          segment (cleanLoop P clusterTag (i + 1) rest t).trace j = (loopBody P j lb' s').trace := by
      rintro t ⟨k, lb', s', hj, hk, hm, hseg⟩
      exact ⟨k + 1, lb', s', by omega, by simpa using hk, hm, hseg⟩
    rcases cleanLoop_cons_cases P clusterTag i lb rest s with ⟨-, h⟩ | ⟨hm, -, h⟩ | ⟨hm, -, h⟩
    · rw [h]
      rcases ih (i + 1) s j with h0 | h1
      · exact Or.inl h0
      · exact Or.inr (hrest s h1)
    · rw [h, hbody]
      by_cases hj : j = i
      · right
        subst hj
        exact ⟨0, lb, s, rfl, by simp, hm, by simp⟩
      · left; simp [hj]
    · rw [h]
      have happ : segment ((loopBody P i lb s).trace ++
            (cleanLoop P clusterTag (i + 1) rest (loopBody P i lb s).state).trace) j =
          segment (loopBody P i lb s).trace j ++
            segment (cleanLoop P clusterTag (i + 1) rest (loopBody P i lb s).state).trace j := by
        simp [segment]
      simp only [happ, hbody]
      by_cases hj : j = i
      · right
        subst hj
        have hnil : segment (cleanLoop P clusterTag (j + 1) rest (loopBody P j lb s).state).trace j
            = [] := by
          unfold segment
          rw [List.filter_eq_nil_iff]
          intro e he
          obtain ⟨m, hm1, hm2⟩ := cleanLoop_owner_ge P clusterTag rest (j + 1) _ e he
          simp only [hm1, beq_iff_eq, Option.some.injEq]
          omega
        exact ⟨0, lb, s, rfl, by simp, hm, by simp [hnil]⟩
      · simp only [hj, if_false, List.nil_append]
        rcases ih (i + 1) (loopBody P i lb s).state j with h0 | h1
        · exact Or.inl h0
        · exact Or.inr (hrest _ h1)

/-- The loop is fail-fast. -/
theorem cleanLoop_failFast {σ π : Type} (P : Provider σ π) (clusterTag : String)
    (L : List LoadBalancer) :
    ∀ (i : Nat) (s : σ), FailFast (cleanLoop P clusterTag i L s) := by
  induction L with
  | nil => intro i s; left; simp [cleanLoop]
  | cons lb rest ih =>
    intro i s
    rcases cleanLoop_cons_cases P clusterTag i lb rest s with ⟨-, h⟩ | ⟨-, -, h⟩ | ⟨-, hn, h⟩
    · rw [h]; exact ih _ _
    · rw [h]; exact loopBody_failFast P i lb s
    · rw [h]
      have hb := (loopBody_err_none_iff P i lb s).1 hn
      rcases ih (i + 1) (loopBody P i lb s).state with ⟨h1, h2⟩ | ⟨h1, pre, e, h2, h3, h4⟩
      · left
        refine ⟨h1, ?_⟩
        intro x hx
        simp only [List.mem_append] at hx
        rcases hx with hx | hx
        · exact hb x hx
        · exact h2 x hx
      · right
        refine ⟨h1, (loopBody P i lb s).trace ++ pre, e, ?_, ?_, h4⟩
        · simp only [h2, List.append_assoc]
        · intro x hx
          simp only [List.mem_append] at hx
          rcases hx with hx | hx
          · exact hb x hx
          · exact h3 x hx

/-! ## Properties of `Clean` -/

/-- The calls of an iteration are made on behalf of its load balancer. -/
theorem loopBody_onBehalf {σ π : Type} (P : Provider σ π) (i : Nat) (lb : LoadBalancer)
    (s : σ) : ∀ e ∈ (loopBody P i lb s).trace, OnBehalf lb (loopBody P i lb s).trace e := by
  rcases loopBody_trace_cases P i lb s with ⟨-, r, hr, ht⟩ | ⟨-, err, ht⟩ |
    ⟨-, f, r, -, hr, ht⟩ | ⟨-, fip, -, ⟨err, ht⟩ | ⟨err, ht⟩ | ⟨r, hr, ht⟩⟩ <;>
  · rw [ht]
    simp [OnBehalf]

/-- The load-balancer deletes of an iteration cascade. -/
theorem loopBody_cascade {σ π : Type} (P : Provider σ π) (i : Nat) (lb : LoadBalancer)
    (s : σ) : ∀ e ∈ (loopBody P i lb s).trace, ∀ id opts, e.call = .Delete id opts →
      opts.Cascade = true := by
  rcases loopBody_trace_cases P i lb s with ⟨-, r, hr, ht⟩ | ⟨-, err, ht⟩ |
    ⟨-, f, r, -, hr, ht⟩ | ⟨-, fip, -, ⟨err, ht⟩ | ⟨err, ht⟩ | ⟨r, hr, ht⟩⟩ <;>
  · rw [ht]
    simp

/-- A call made for a load balancer belongs to the iteration over a selected
element of the listed inventory. -/
theorem Clean_mem_perLB {σ π : Type} (P : Provider σ π) (clusterTag : String) (s : σ)
    (e : Event) (he : e ∈ (LoadBalancerCleaner.Clean P clusterTag s).trace)
    (hper : e.call.perLB = true ∨ e.owner ≠ none) :
    ∃ L j lb s', Listed (LoadBalancerCleaner.Clean P clusterTag s).trace L ∧
      L[j]? = some lb ∧ mustBeDeleted lb clusterTag = true ∧
      e ∈ (loopBody P j lb s').trace ∧
      (loopBody P j lb s').trace ⊆ (LoadBalancerCleaner.Clean P clusterTag s).trace := by
  rcases Clean_cases P clusterTag s with ⟨err, -, ht | ⟨L, ht⟩⟩ |
    ⟨s1, s2, allPages, s3, L, s4, -, -, -, -, -, h⟩
  · exfalso
    simp only [setupFailures, List.mem_cons, List.mem_singleton, List.not_mem_nil, or_false] at ht
    rcases ht with ht | ht | ht | ht <;>
    · rw [ht] at he
      simp only [List.mem_cons, List.mem_singleton, List.not_mem_nil, or_false] at he
      rcases he with rfl | rfl | rfl | rfl <;> simp [Call.perLB] at hper
  · exfalso
    rw [ht] at he
    simp only [setupDone, List.dropLast, List.cons_append, List.nil_append,
      List.mem_cons, List.mem_singleton, List.not_mem_nil, or_false] at he
    rcases he with rfl | rfl | rfl | rfl | rfl <;> simp [Call.perLB] at hper
  · rw [h] at he ⊢
    simp only [List.mem_append] at he
    rcases he with he | he
    · exfalso
      simp only [setupDone, List.mem_cons, List.mem_singleton, List.not_mem_nil, or_false] at he
      rcases he with rfl | rfl | rfl | rfl | rfl <;> simp [Call.perLB] at hper
    · obtain ⟨k, lb, s', hk, hm, hmem, hsub⟩ := cleanLoop_mem P clusterTag L 0 s4 e he
      simp only [Nat.zero_add] at hmem hsub
      refine ⟨L, k, lb, s', ?_, hk, hm, hmem, fun x hx => List.mem_append_right _ (hsub hx)⟩
      simp [Listed, setupDone]

/-- `Clean` is fail-fast. -/
theorem Clean_failFast {σ π : Type} (P : Provider σ π) (clusterTag : String) (s : σ) :
    FailFast (LoadBalancerCleaner.Clean P clusterTag s) := by
  rcases Clean_cases P clusterTag s with ⟨err, he, ht | ⟨L, ht⟩⟩ |
    ⟨s1, s2, allPages, s3, L, s4, -, -, -, -, -, h⟩
  · right
    refine ⟨by simp [he], ?_⟩
    simp only [setupFailures, List.mem_cons, List.mem_singleton, List.not_mem_nil, or_false] at ht
    rcases ht with ht | ht | ht | ht <;> rw [ht]
    · exact ⟨[], _, rfl, by simp, rfl⟩
    · exact ⟨[_], _, rfl, by simp [Event.ok], rfl⟩
    · exact ⟨[_, _], _, rfl, by simp [Event.ok], rfl⟩
    · exact ⟨[_, _, _], _, rfl, by simp [Event.ok], rfl⟩
  · right
    refine ⟨by simp [he], _, _, ht, ?_, rfl⟩
    simp [setupDone, Event.ok]
  · rw [h]
    have hs : ∀ x ∈ setupDone L, x.ok = true := by simp [setupDone, Event.ok]
    rcases cleanLoop_failFast P clusterTag L 0 s4 with ⟨h1, h2⟩ | ⟨h1, pre, e, h2, h3, h4⟩
    · left
      refine ⟨h1, ?_⟩
      intro x hx
      simp only [List.mem_append] at hx
      rcases hx with hx | hx
      · exact hs x hx
      · exact h2 x hx
    · right
      refine ⟨h1, setupDone L ++ pre, e, ?_, ?_, h4⟩
      · simp only [h2, List.append_assoc]
      · intro x hx
        simp only [List.mem_append] at hx
        rcases hx with hx | hx
        · exact hs x hx
        · exact h3 x hx

/-- In a fail-fast run nothing follows a failing call. -/
theorem FailFast.last_of_failed {σ : Type} {r : Outcome σ} (h : FailFast r)
    (pre : List Event) (e : Event) (post : List Event) (ht : r.trace = pre ++ e :: post)
    (he : e.ok = false) : post = [] ∧ r.err ≠ none := by
  rcases h with ⟨-, h2⟩ | ⟨h1, pre', e', h2, h3, -⟩
  · have := h2 e (by rw [ht]; simp)
    rw [he] at this
    exact absurd this (by simp)
  · refine ⟨?_, h1⟩
    rw [ht] at h2
    rcases List.append_eq_append_iff.1 h2 with ⟨a, ha, hb⟩ | ⟨c, hc, hd⟩
    · rcases a with _ | ⟨x, a⟩
      · simp only [List.nil_append, List.cons.injEq] at hb
        exact hb.2
      · simp only [List.cons_append, List.cons.injEq] at hb
        have := h3 e (by rw [ha, hb.1]; simp)
        rw [he] at this
        exact absurd this (by simp)
    · rcases c with _ | ⟨x, c⟩
      · simp only [List.nil_append, List.cons.injEq] at hd
        exact hd.2.symm
      · simp at hd

/-- `Clean` lists at most one inventory. -/
theorem Listed_unique {σ π : Type} (P : Provider σ π) (clusterTag : String) (s : σ)
    (L L' : List LoadBalancer) (h : Listed (LoadBalancerCleaner.Clean P clusterTag s).trace L)
    (h' : Listed (LoadBalancerCleaner.Clean P clusterTag s).trace L') : L = L' := by
  have key : ∀ L0 (tr : List Event), (∀ e ∈ tr, e.owner ≠ none ∨ e.call ≠ .ExtractLoadBalancers) →
      ∀ M, Listed ((setupDone L0).dropLast ++ tr) M → M = L0 := by
    intro L0 tr htr M hM
    simp only [Listed, setupDone, List.dropLast, List.cons_append, List.nil_append,
      List.mem_cons, Event.mk.injEq, reduceCtorEq, and_false, false_and, true_and,
      Resp.loadBalancers.injEq, false_or] at hM
    rcases hM with hM | hM
    · exact hM
    · have := htr _ hM
      simp at this
  unfold Listed at h h'
  rcases Clean_cases P clusterTag s with ⟨err, -, ht | ⟨L0, ht⟩⟩ |
    ⟨s1, s2, allPages, s3, L0, s4, -, -, -, -, -, hc⟩
  · exfalso
    simp only [setupFailures, List.mem_cons, List.mem_singleton, List.not_mem_nil, or_false] at ht
    rcases ht with ht | ht | ht | ht <;>
    · rw [ht] at h
      simp at h
  · rw [ht] at h h'
    have e1 := key L0 _ (by simp) L h
    have e2 := key L0 _ (by simp) L' h'
    rw [e1, e2]
  · have hsplit : setupDone L0 ++ (cleanLoop P clusterTag 0 L0 s4).trace =
        (setupDone L0).dropLast ++
          (⟨none, .NewService, .done⟩ :: (cleanLoop P clusterTag 0 L0 s4).trace) := by
      simp [setupDone]
    rw [hc] at h h'
    simp only [hsplit] at h h'
    have htr : ∀ e ∈ (⟨none, .NewService, .done⟩ : Event) ::
        (cleanLoop P clusterTag 0 L0 s4).trace, e.owner ≠ none ∨ e.call ≠ .ExtractLoadBalancers := by
      intro e he
      simp only [List.mem_cons] at he
      rcases he with rfl | he
      · simp
      · obtain ⟨m, hm, -⟩ := cleanLoop_owner_ge P clusterTag L0 0 s4 e he
        left; simp [hm]
    have e1 := key L0 _ htr L h
    have e2 := key L0 _ htr L' h'
    rw [e1, e2]

/-- The calls `Clean` recorded under index `j`: none, or those of the
iteration over the selected element at that index of the listed inventory. -/
theorem Clean_segment {σ π : Type} (P : Provider σ π) (clusterTag : String) (s : σ) (j : Nat) :
    segment (LoadBalancerCleaner.Clean P clusterTag s).trace j = [] ∨
    ∃ L lb s', Listed (LoadBalancerCleaner.Clean P clusterTag s).trace L ∧
      L[j]? = some lb ∧ mustBeDeleted lb clusterTag = true ∧
      segment (LoadBalancerCleaner.Clean P clusterTag s).trace j = (loopBody P j lb s').trace := by
  rcases Clean_cases P clusterTag s with ⟨err, -, ht | ⟨L, ht⟩⟩ |
    ⟨s1, s2, allPages, s3, L, s4, -, -, -, -, -, h⟩
  · left
    simp only [setupFailures, List.mem_cons, List.mem_singleton, List.not_mem_nil, or_false] at ht
    rcases ht with ht | ht | ht | ht <;>
    · rw [ht]
      simp [segment]
  · left
    rw [ht]
    simp [segment, setupDone]
  · rw [h]
    have hseg : segment (setupDone L ++ (cleanLoop P clusterTag 0 L s4).trace) j =
        segment (cleanLoop P clusterTag 0 L s4).trace j := by
      simp [segment, setupDone]
    simp only [hseg]
    rcases cleanLoop_segment P clusterTag L 0 s4 j with h0 | ⟨k, lb, s', hj, hk, hm, hs⟩
    · exact Or.inl h0
    · right
      have hkj : k = j := by omega
      subst hkj
      exact ⟨L, lb, s', by simp [Listed, setupDone], hk, hm, hs⟩

/-- A successful iteration issues exactly one load-balancer delete, for the
ID of its load balancer. -/
theorem loopBody_deletedIDs {σ π : Type} (P : Provider σ π) (i : Nat) (lb : LoadBalancer)
    (s : σ) (h : (loopBody P i lb s).err = none) :
    deletedIDs (loopBody P i lb s).trace = [lb.ID] := by
  have hok := (loopBody_err_none_iff P i lb s).1 h
  rcases loopBody_trace_cases P i lb s with ⟨-, r, hr, ht⟩ | ⟨-, err, ht⟩ |
    ⟨-, f, r, -, hr, ht⟩ | ⟨-, fip, -, ⟨err, ht⟩ | ⟨err, ht⟩ | ⟨r, hr, ht⟩⟩ <;>
  · rw [ht] at hok ⊢
    first
      | (simp [Event.ok] at hok; done)
      | simp [deletedIDs]

/-- A loop that returns `nil` deleted the selected elements of the list, in
list order. -/
theorem cleanLoop_deletedIDs {σ π : Type} (P : Provider σ π) (clusterTag : String)
    (L : List LoadBalancer) :
    ∀ (i : Nat) (s : σ), (cleanLoop P clusterTag i L s).err = none →
      deletedIDs (cleanLoop P clusterTag i L s).trace =
        (L.filter (fun lb => mustBeDeleted lb clusterTag)).map (fun lb => lb.ID) := by
  induction L with
  | nil => intro i s _; simp [cleanLoop, deletedIDs]
  | cons lb rest ih =>
    intro i s hn
    rcases cleanLoop_cons_cases P clusterTag i lb rest s with ⟨hm, h⟩ | ⟨hm, hb, h⟩ | ⟨hm, hb, h⟩
    · rw [h] at hn ⊢
      simp [hm, ih (i + 1) s hn]
    · rw [h] at hn
      exact absurd hn hb
    · rw [h] at hn ⊢
      simp only at hn
      have h1 := loopBody_deletedIDs P i lb s hb
      have h2 := ih (i + 1) _ hn
      unfold deletedIDs at h1 h2 ⊢
      simp only [List.filterMap_append, h1, h2, hm, List.filter_cons_of_pos,
        List.map_cons, List.singleton_append]

/-! ## The provider state -/

theorem replay_append {σ π : Type} (P : Provider σ π) (s : σ) (a b : List Call) :
    P.replay s (a ++ b) = P.replay (P.replay s a) b := by
  simp [Provider.replay, List.foldl_append]

/-- The state after an iteration is the state the provider reaches by the
calls of the iteration. -/
theorem loopBody_replay {σ π : Type} (P : Provider σ π) (i : Nat) (lb : LoadBalancer)
    (s : σ) :
    (loopBody P i lb s).state = P.replay s ((loopBody P i lb s).trace.map (fun e => e.call)) := by
  unfold loopBody cleanVip cleanFloatingIP
  by_cases hp : lb.VipPortID = ""
  · simp only [hp, bne_self_eq_false, Bool.false_eq_true, if_false]
    rcases hD : P.Delete s lb.ID ⟨true⟩ with ⟨_ | _, s2⟩ <;>
      simp [Provider.replay, Provider.apply, hD]
  · simp only [bne_iff_ne, ne_eq, hp, not_false_eq_true, if_true]
    rcases hG : P.GetFloatingIPByPortID s lb.VipPortID with ⟨_ | f, s1⟩
    · simp [Provider.replay, Provider.apply, hG]
    · rcases f with _ | fip
      · simp only
        rcases hD : P.Delete s1 lb.ID ⟨true⟩ with ⟨_ | _, s2⟩ <;>
          simp [Provider.replay, Provider.apply, hG, hD]
      · by_cases ha : fip.FloatingIP = ""
        · simp only [ha, not_true_eq_false, if_false]
          rcases hD : P.Delete s1 lb.ID ⟨true⟩ with ⟨_ | _, s2⟩ <;>
            simp [Provider.replay, Provider.apply, hG, hD]
        · simp only [ha, not_false_eq_true, if_true]
          rcases hA : P.DisassociateFloatingIP s1 fip.FloatingIP with ⟨_ | _, s2⟩
          · simp [Provider.replay, Provider.apply, hG, hA]
          · simp only
            rcases hB : P.DeleteFloatingIP s2 fip.FloatingIP with ⟨_ | _, s3⟩
            · simp [Provider.replay, Provider.apply, hG, hA, hB]
            · simp only
              rcases hD : P.Delete s3 lb.ID ⟨true⟩ with ⟨_ | _, s4⟩ <;>
                simp [Provider.replay, Provider.apply, hG, hA, hB, hD]

/-- When failing calls leave the provider as it was, the state after a failed
iteration is the one reached by the calls before the failing one. -/
theorem loopBody_replay_failed {σ π : Type} (P : Provider σ π) (hP : P.FailuresPure) (i : Nat)
    (lb : LoadBalancer) (s : σ) (herr : (loopBody P i lb s).err ≠ none) :
    (loopBody P i lb s).state =
      P.replay s ((loopBody P i lb s).trace.dropLast.map (fun e => e.call)) := by
  obtain ⟨-, -, -, -, fG, fA, fB, fD⟩ := hP
  revert herr
  unfold loopBody cleanVip cleanFloatingIP
  by_cases hp : lb.VipPortID = ""
  · simp only [hp, bne_self_eq_false, Bool.false_eq_true, if_false]
    rcases hD : P.Delete s lb.ID ⟨true⟩ with ⟨_ | _, s2⟩
    · have := fD _ _ _ _ _ hD
      simp [Provider.replay, this]
    · simp
  · simp only [bne_iff_ne, ne_eq, hp, not_false_eq_true, if_true]
    rcases hG : P.GetFloatingIPByPortID s lb.VipPortID with ⟨_ | f, s1⟩
    · have := fG _ _ _ _ hG
      simp [Provider.replay, this]
    · rcases f with _ | fip
      · simp only
        rcases hD : P.Delete s1 lb.ID ⟨true⟩ with ⟨_ | _, s2⟩
        · have := fD _ _ _ _ _ hD
          simp [Provider.replay, Provider.apply, hG, this]
        · simp
      · by_cases ha : fip.FloatingIP = ""
        · simp only [ha, not_true_eq_false, if_false]
          rcases hD : P.Delete s1 lb.ID ⟨true⟩ with ⟨_ | _, s2⟩
          · have := fD _ _ _ _ _ hD
            simp [Provider.replay, Provider.apply, hG, this]
          · simp
        · simp only [ha, not_false_eq_true, if_true]
          rcases hA : P.DisassociateFloatingIP s1 fip.FloatingIP with ⟨_ | _, s2⟩
          · have := fA _ _ _ _ hA
            simp [Provider.replay, Provider.apply, hG, this]
          · simp only
            rcases hB : P.DeleteFloatingIP s2 fip.FloatingIP with ⟨_ | _, s3⟩
            · have := fB _ _ _ _ hB
              simp [Provider.replay, Provider.apply, hG, hA, this]
            · simp only
              rcases hD : P.Delete s3 lb.ID ⟨true⟩ with ⟨_ | _, s4⟩
              · have := fD _ _ _ _ _ hD
                simp [Provider.replay, Provider.apply, hG, hA, hB, this]
              · simp

/-- The state after the loop is the state the provider reaches by the calls of
the loop. -/
theorem cleanLoop_replay {σ π : Type} (P : Provider σ π) (clusterTag : String)
    (L : List LoadBalancer) :
    ∀ (i : Nat) (s : σ), (cleanLoop P clusterTag i L s).state =
      P.replay s ((cleanLoop P clusterTag i L s).trace.map (fun e => e.call)) := by
  induction L with
  | nil => intro i s; simp [cleanLoop, Provider.replay]
  | cons lb rest ih =>
    intro i s
    rcases cleanLoop_cons_cases P clusterTag i lb rest s with ⟨-, h⟩ | ⟨-, -, h⟩ | ⟨-, -, h⟩
    · rw [h]; exact ih _ _
    · rw [h]; exact loopBody_replay P i lb s
    · rw [h]
      simp only [List.map_append, replay_append, ← loopBody_replay P i lb s]
      exact ih _ _

/-- When failing calls leave the provider as it was, the state after a failed
loop is the one reached by the calls before the failing one. -/
theorem cleanLoop_replay_failed {σ π : Type} (P : Provider σ π) (hP : P.FailuresPure)
    (clusterTag : String) (L : List LoadBalancer) :
    ∀ (i : Nat) (s : σ), (cleanLoop P clusterTag i L s).err ≠ none →
      (cleanLoop P clusterTag i L s).state =
        P.replay s ((cleanLoop P clusterTag i L s).trace.dropLast.map (fun e => e.call)) := by
  induction L with
  | nil => intro i s h; simp [cleanLoop] at h
  | cons lb rest ih =>
    intro i s herr
    rcases cleanLoop_cons_cases P clusterTag i lb rest s with ⟨-, h⟩ | ⟨-, hb, h⟩ | ⟨-, -, h⟩
    · rw [h] at herr ⊢; exact ih _ _ herr
    · rw [h]; exact loopBody_replay_failed P hP i lb s hb
    · rw [h] at herr ⊢
      simp only at herr
      have hne : (cleanLoop P clusterTag (i + 1) rest (loopBody P i lb s).state).trace ≠ [] := by
        rcases cleanLoop_failFast P clusterTag rest (i + 1) (loopBody P i lb s).state with
          ⟨h1, -⟩ | ⟨-, pre, e, h2, -, -⟩
        · exact absurd h1 herr
        · rw [h2]; simp
      simp only [List.dropLast_append_of_ne_nil _ hne, List.map_append, replay_append,
        ← loopBody_replay P i lb s]
      exact ih _ _ herr

/-- The state after `Clean` is the state the provider reaches by the calls
`Clean` issued. -/
theorem Clean_replay {σ π : Type} (P : Provider σ π) (clusterTag : String) (s : σ) :
    (LoadBalancerCleaner.Clean P clusterTag s).state =
      P.replay s ((LoadBalancerCleaner.Clean P clusterTag s).trace.map (fun e => e.call)) := by
  unfold LoadBalancerCleaner.Clean
  rcases h1 : P.NewClientFromCluster s with ⟨_ | _, s1⟩
  · simp [Provider.replay, Provider.apply, h1]
  simp only
  rcases h2 : P.NewLoadBalancerV2 s1 with ⟨_ | _, s2⟩
  · simp [Provider.replay, Provider.apply, h1, h2]
  simp only
  rcases h3 : P.ListAllPages s2 with ⟨_ | allPages, s3⟩
  · simp [Provider.replay, Provider.apply, h1, h2, h3]
  simp only
  rcases h4 : P.ExtractLoadBalancers allPages with _ | lbList
  · simp [Provider.replay, Provider.apply, h1, h2, h3]
  simp only
  rcases h5 : P.NewService s3 with ⟨_ | _, s4⟩
  · simp [Provider.replay, Provider.apply, h1, h2, h3, h5]
  · have := cleanLoop_replay P clusterTag lbList 0 s4
    simp only [List.map_append, replay_append]
    simpa [Provider.replay, Provider.apply, h1, h2, h3, h5] using this

/-- When failing calls leave the provider as it was, the state after a failed
`Clean` is the one reached by the calls before the failing one. -/
theorem Clean_replay_failed {σ π : Type} (P : Provider σ π) (hP : P.FailuresPure)
    (clusterTag : String) (s : σ) (herr : (LoadBalancerCleaner.Clean P clusterTag s).err ≠ none) :
    (LoadBalancerCleaner.Clean P clusterTag s).state =
      P.replay s ((LoadBalancerCleaner.Clean P clusterTag s).trace.dropLast.map
        (fun e => e.call)) := by
  have hP' := hP
  obtain ⟨f1, f2, f3, f5, -, -, -, -⟩ := hP'
  revert herr
  unfold LoadBalancerCleaner.Clean
  rcases h1 : P.NewClientFromCluster s with ⟨_ | _, s1⟩
  · have := f1 _ _ _ h1
    simp [Provider.replay, this]
  simp only
  rcases h2 : P.NewLoadBalancerV2 s1 with ⟨_ | _, s2⟩
  · have := f2 _ _ _ h2
    simp [Provider.replay, Provider.apply, h1, this]
  simp only
  rcases h3 : P.ListAllPages s2 with ⟨_ | allPages, s3⟩
  · have := f3 _ _ _ h3
    simp [Provider.replay, Provider.apply, h1, h2, this]
  simp only
  rcases h4 : P.ExtractLoadBalancers allPages with _ | lbList
  · simp [Provider.replay, Provider.apply, h1, h2, h3]
  simp only
  rcases h5 : P.NewService s3 with ⟨_ | _, s4⟩
  · have := f5 _ _ _ h5
    simp [Provider.replay, Provider.apply, h1, h2, h3, this]
  · intro herr
    simp only at herr
    have hne : (cleanLoop P clusterTag 0 lbList s4).trace ≠ [] := by
      rcases cleanLoop_failFast P clusterTag lbList 0 s4 with ⟨h1, -⟩ | ⟨-, pre, e, h2, -, -⟩
      · exact absurd h1 herr
      · rw [h2]; simp
    have := cleanLoop_replay_failed P hP clusterTag lbList 0 s4 herr
    simp only [List.dropLast_append_of_ne_nil _ hne, List.map_append, replay_append]
    simpa [Provider.replay, Provider.apply, h1, h2, h3, h5] using this

/-! ## The in-memory provider -/

theorem Cloud.reply_error (c : Cloud) (call : Call) (next : Cloud) (err : Error) (c' : Cloud)
    (h : c.reply call next = (.error err, c')) : c' = c := by
  unfold Cloud.reply at h
  split at h
  · simp only [Prod.mk.injEq] at h
    exact h.2.symm
  · simp at h

theorem Cloud.reply_ok (c : Cloud) (call : Call) (next : Cloud) (c' : Cloud)
    (h : c.reply call next = (.ok (), c')) : c' = next := by
  unfold Cloud.reply at h
  split at h
  · simp at h
  · simp only [Prod.mk.injEq] at h
    exact h.2.symm

theorem Cloud.reply_state (c : Cloud) (call : Call) (next : Cloud) :
    (c.reply call next).2 = c ∨ (c.reply call next).2 = next := by
  unfold Cloud.reply
  split
  · exact Or.inl rfl
  · exact Or.inr rfl

/-- The failing calls of the in-memory provider leave its state as it was. -/
theorem Cloud.provider_failuresPure : Cloud.provider.FailuresPure := by
  refine ⟨?_, ?_, ?_, ?_, ?_, ?_, ?_, ?_⟩
  · intro s err s' h; exact Cloud.reply_error _ _ _ _ _ h
  · intro s err s' h; exact Cloud.reply_error _ _ _ _ _ h
  · intro s err s' h
    simp only [Cloud.provider] at h
    split at h
    · simp only [Prod.mk.injEq] at h
      exact h.2.symm
    · simp at h
  · intro s err s' h; exact Cloud.reply_error _ _ _ _ _ h
  · intro s portID err s' h
    simp only [Cloud.provider] at h
    split at h
    · simp only [Prod.mk.injEq] at h
      exact h.2.symm
    · simp at h
  · intro s ip err s' h; exact Cloud.reply_error _ _ _ _ _ h
  · intro s ip err s' h; exact Cloud.reply_error _ _ _ _ _ h
  · intro s id opts err s' h; exact Cloud.reply_error _ _ _ _ _ h

/-! ## Inventories that shrink by deletion -/

/-- No sequence of calls adds a load balancer. -/
theorem replay_shrink {σ π : Type} (P : Provider σ π) (inv : σ → List LoadBalancer)
    (hP : P.RemovesDeleted inv) (calls : List Call) :
    ∀ s, ∀ x ∈ inv (P.replay s calls), x ∈ inv s := by
  induction calls with
  | nil => intro s x hx; simpa [Provider.replay] using hx
  | cons c rest ih =>
    intro s x hx
    have hx' : x ∈ inv (P.replay (P.apply s c) rest) := by
      simpa [Provider.replay] using hx
    exact hP.shrink s c x (ih _ x hx')

/-- A successful iteration removes the load balancers with the ID of its load
balancer from the inventory. -/
theorem loopBody_removes {σ π : Type} (P : Provider σ π) (inv : σ → List LoadBalancer)
    (hP : P.RemovesDeleted inv) (i : Nat) (lb : LoadBalancer) (s : σ)
    (herr : (loopBody P i lb s).err = none) :
    ∀ x ∈ inv (loopBody P i lb s).state, x ∈ inv s ∧ x.ID ≠ lb.ID := by
  have key : ∀ (t t' : σ) (calls : List Call), t = P.replay s calls →
      P.Delete t lb.ID ⟨true⟩ = (.ok (), t') → ∀ x ∈ inv t', x ∈ inv s ∧ x.ID ≠ lb.ID := by
    intro t t' calls ht hD x hx
    obtain ⟨h1, h2⟩ := hP.delete t lb.ID ⟨true⟩ t' hD x hx
    rw [ht] at h1
    exact ⟨replay_shrink P inv hP calls s x h1, h2⟩
  revert herr
  unfold loopBody cleanVip cleanFloatingIP
  by_cases hp : lb.VipPortID = ""
  · simp only [hp, bne_self_eq_false, Bool.false_eq_true, if_false]
    rcases hD : P.Delete s lb.ID ⟨true⟩ with ⟨_ | _, s2⟩
    · simp
    · intro _
      exact key s s2 [] rfl hD
  · simp only [bne_iff_ne, ne_eq, hp, not_false_eq_true, if_true]
    rcases hG : P.GetFloatingIPByPortID s lb.VipPortID with ⟨_ | f, s1⟩
    · simp
    · have e1 : s1 = P.replay s [.GetFloatingIPByPortID lb.VipPortID] := by
        simp [Provider.replay, Provider.apply, hG]
      rcases f with _ | fip
      · simp only
        rcases hD : P.Delete s1 lb.ID ⟨true⟩ with ⟨_ | _, s2⟩
        · simp
        · intro _
          exact key s1 s2 _ e1 hD
      · by_cases ha : fip.FloatingIP = ""
        · simp only [ha, not_true_eq_false, if_false]
          rcases hD : P.Delete s1 lb.ID ⟨true⟩ with ⟨_ | _, s2⟩
          · simp
          · intro _
            exact key s1 s2 _ e1 hD
        · simp only [ha, not_false_eq_true, if_true]
          rcases hA : P.DisassociateFloatingIP s1 fip.FloatingIP with ⟨_ | _, s2⟩
          · simp
          · simp only
            rcases hB : P.DeleteFloatingIP s2 fip.FloatingIP with ⟨_ | _, s3⟩
            · simp
            · simp only
              have e3 : s3 = P.replay s [.GetFloatingIPByPortID lb.VipPortID,
                  .DisassociateFloatingIP fip.FloatingIP, .DeleteFloatingIP fip.FloatingIP] := by
                simp [Provider.replay, Provider.apply, hG, hA, hB]
              rcases hD : P.Delete s3 lb.ID ⟨true⟩ with ⟨_ | _, s4⟩
              · simp
              · intro _
                exact key s3 s4 _ e3 hD

/-- A loop that returns `nil` leaves in the inventory no load balancer with
the ID of a selected element of the list. -/
theorem cleanLoop_removes {σ π : Type} (P : Provider σ π) (inv : σ → List LoadBalancer)
    (hP : P.RemovesDeleted inv) (clusterTag : String) (L : List LoadBalancer) :
    ∀ (i : Nat) (s : σ), (cleanLoop P clusterTag i L s).err = none →
      ∀ x ∈ inv (cleanLoop P clusterTag i L s).state,
        x ∈ inv s ∧ ∀ lb ∈ L, mustBeDeleted lb clusterTag = true → x.ID ≠ lb.ID := by
  induction L with
  | nil => intro i s _ x hx; exact ⟨by simpa [cleanLoop] using hx, by simp⟩
  | cons lb rest ih =>
    intro i s herr x hx
    rcases cleanLoop_cons_cases P clusterTag i lb rest s with ⟨hm, h⟩ | ⟨-, hb, h⟩ | ⟨-, hb, h⟩
    · rw [h] at herr hx
      obtain ⟨h1, h2⟩ := ih (i + 1) s herr x hx
      refine ⟨h1, ?_⟩
      intro lb' hlb' hsel
      simp only [List.mem_cons] at hlb'
      rcases hlb' with rfl | hlb'
      · rw [hm] at hsel
        exact absurd hsel (by simp)
      · exact h2 lb' hlb' hsel
    · rw [h] at herr
      exact absurd herr hb
    · rw [h] at herr hx
      simp only at herr hx
      obtain ⟨h1, h2⟩ := ih (i + 1) _ herr x hx
      obtain ⟨h3, h4⟩ := loopBody_removes P inv hP i lb s hb x h1
      refine ⟨h3, ?_⟩
      intro lb' hlb' hsel
      simp only [List.mem_cons] at hlb'
      rcases hlb' with rfl | hlb'
      · exact h4
      · exact h2 lb' hlb' hsel

/-- Over a list without a selected element the loop does nothing. -/
theorem cleanLoop_none_selected {σ π : Type} (P : Provider σ π) (clusterTag : String)
    (L : List LoadBalancer) (hL : ∀ lb ∈ L, mustBeDeleted lb clusterTag = false) :
    ∀ (i : Nat) (s : σ), cleanLoop P clusterTag i L s = ⟨none, s, []⟩ := by
  induction L with
  | nil => intro i s; simp [cleanLoop]
  | cons lb rest ih =>
    intro i s
    have h1 := hL lb (by simp)
    simp only [cleanLoop, h1, Bool.not_false, if_true]
    exact ih (fun x hx => hL x (by simp [hx])) _ _

/-- The inventory `Clean` listed is part of the inventory it started from. -/
theorem Clean_listed_inv {σ π : Type} (P : Provider σ π) (inv : σ → List LoadBalancer)
    (hP : P.RemovesDeleted inv) (clusterTag : String) (s : σ) (L : List LoadBalancer)
    (hL : Listed (LoadBalancerCleaner.Clean P clusterTag s).trace L) :
    ∃ t, L = inv t ∧ ∀ x ∈ inv t, x ∈ inv s := by
  revert hL
  unfold LoadBalancerCleaner.Clean
  rcases h1 : P.NewClientFromCluster s with ⟨_ | _, s1⟩
  · simp [Listed]
  simp only
  rcases h2 : P.NewLoadBalancerV2 s1 with ⟨_ | _, s2⟩
  · simp [Listed]
  simp only
  rcases h3 : P.ListAllPages s2 with ⟨_ | allPages, s3⟩
  · simp [Listed]
  simp only
  rcases h4 : P.ExtractLoadBalancers allPages with _ | lbList
  · simp [Listed]
  simp only
  have e2 : s2 = P.replay s [.NewClientFromCluster, .NewLoadBalancerV2] := by
    simp [Provider.replay, Provider.apply, h1, h2]
  have hres : ∃ t, lbList = inv t ∧ ∀ x ∈ inv t, x ∈ inv s :=
    ⟨s2, hP.list s2 allPages s3 lbList h3 h4, by
      intro x hx
      rw [e2] at hx
      exact replay_shrink P inv hP _ s x hx⟩
  rcases h5 : P.NewService s3 with ⟨_ | _, s4⟩
  · intro hL
    simp only [Listed, List.mem_cons, Event.mk.injEq, reduceCtorEq, and_false, false_and,
      true_and, Resp.loadBalancers.injEq, false_or, List.not_mem_nil, or_false] at hL
    rw [hL]
    exact hres
  · intro hL
    simp only [Listed, List.cons_append, List.nil_append, List.mem_cons, Event.mk.injEq,
      reduceCtorEq, and_false, false_and, true_and, Resp.loadBalancers.injEq, false_or] at hL
    rcases hL with hL | hL
    · rw [hL]
      exact hres
    · obtain ⟨m, hm, -⟩ := cleanLoop_owner_ge P clusterTag lbList 0 s4 _ hL
      simp at hm

/-- When no listed load balancer is selected, `Clean` issues set-up calls only
and returns `nil` once the set-up is through. -/
theorem Clean_nothing_selected {σ π : Type} (P : Provider σ π) (clusterTag : String) (s : σ)
    (L : List LoadBalancer) (hL : Listed (LoadBalancerCleaner.Clean P clusterTag s).trace L)
    (hsel : ∀ lb ∈ L, mustBeDeleted lb clusterTag = false) :
    (∀ e ∈ (LoadBalancerCleaner.Clean P clusterTag s).trace,
      e.owner = none ∧ e.call.perLB = false) ∧
    ((⟨none, .NewService, .done⟩ : Event) ∈ (LoadBalancerCleaner.Clean P clusterTag s).trace →
      (LoadBalancerCleaner.Clean P clusterTag s).err = none) := by
  rcases Clean_cases P clusterTag s with ⟨err, -, ht | ⟨L0, ht⟩⟩ |
    ⟨s1, s2, allPages, s3, L0, s4, -, -, -, -, -, h⟩
  · simp only [setupFailures, List.mem_cons, List.mem_singleton, List.not_mem_nil, or_false] at ht
    rcases ht with ht | ht | ht | ht <;>
    · rw [ht]
      simp [Call.perLB]
  · rw [ht]
    simp [setupDone, Call.perLB]
  · have hL0 : Listed (LoadBalancerCleaner.Clean P clusterTag s).trace L0 := by
      rw [h]; simp [Listed, setupDone]
    have := Listed_unique P clusterTag s L L0 hL hL0
    subst this
    rw [h, cleanLoop_none_selected P clusterTag L hsel 0 s4]
    simp [setupDone, Call.perLB]

/-- After a run of `Clean` that returned `nil`, no load balancer of the
inventory is selected. -/
theorem Clean_leaves_unselected {σ π : Type} (P : Provider σ π) (inv : σ → List LoadBalancer)
    (hP : P.RemovesDeleted inv) (clusterTag : String) (s : σ)
    (herr : (LoadBalancerCleaner.Clean P clusterTag s).err = none) :
    ∀ x ∈ inv (LoadBalancerCleaner.Clean P clusterTag s).state,
      mustBeDeleted x clusterTag = false := by
  rcases Clean_cases P clusterTag s with ⟨err, he, -⟩ |
    ⟨s1, s2, allPages, s3, L, s4, -, -, h3, h4, h5, h⟩
  · rw [he] at herr
    exact absurd herr (by simp)
  · rw [h] at herr ⊢
    simp only at herr ⊢
    intro x hx
    obtain ⟨hx4, hne⟩ := cleanLoop_removes P inv hP clusterTag L 0 s4 herr x hx
    have e4 : s4 = P.replay s2 [.ListAllPages, .NewService] := by
      simp [Provider.replay, Provider.apply, h3, h5]
    rw [e4] at hx4
    have hx2 := replay_shrink P inv hP _ s2 x hx4
    rw [← hP.list s2 allPages s3 L h3 h4] at hx2
    by_contra hsel
    simp only [Bool.not_eq_false] at hsel
    exact hne x hx2 hsel rfl

/-- The in-memory provider removes what is deleted from its inventory. -/
theorem Cloud.provider_removesDeleted : Cloud.provider.RemovesDeleted Cloud.lbs := by
  refine ⟨?_, ?_, ?_⟩
  · intro s allPages s' lbList h1 h2
    simp only [Cloud.provider] at h1 h2
    split at h1
    · simp at h1
    · simp only [Prod.mk.injEq, Except.ok.injEq] at h1 h2
      rw [← h2, ← h1.1]
  · intro s id opts s' h x hx
    have := Cloud.reply_ok _ _ _ _ h
    subst this
    simpa using hx
  · intro s call x hx
    cases call <;> simp only [Provider.apply, Cloud.provider] at hx
    case ExtractLoadBalancers => exact hx
    case ListAllPages =>
      split at hx <;> exact hx
    case GetFloatingIPByPortID portID =>
      split at hx <;> exact hx
    all_goals
      rcases Cloud.reply_state s _ _ with h | h <;> rw [h] at hx
      all_goals first
        | exact hx
        | exact (List.mem_filter.1 hx).1

/-! ## Reached iterations -/

theorem segment_ne_nil {tr : List Event} {j : Nat} {e : Event} (he : e ∈ tr)
    (ho : e.owner = some j) : segment tr j ≠ [] := by
  intro h
  have : e ∈ segment tr j := by
    simp [segment, he, ho]
  rw [h] at this
  simp at this

theorem exists_of_segment_ne_nil {tr : List Event} {j : Nat} (h : segment tr j ≠ []) :
    ∃ e ∈ tr, e.owner = some j := by
  obtain ⟨e, he⟩ := List.exists_mem_of_ne_nil _ h
  simp only [segment, List.mem_filter, beq_iff_eq] at he
  exact ⟨e, he.1, he.2⟩

/-- An iteration issues at least one call. -/
theorem loopBody_trace_ne_nil {σ π : Type} (P : Provider σ π) (i : Nat) (lb : LoadBalancer)
    (s : σ) : ∃ e ∈ (loopBody P i lb s).trace, e.owner = some i := by
  have hne : (loopBody P i lb s).trace ≠ [] := by
    rcases loopBody_trace_cases P i lb s with ⟨-, r, hr, ht⟩ | ⟨-, err, ht⟩ |
      ⟨-, f, r, -, hr, ht⟩ | ⟨-, fip, -, ⟨err, ht⟩ | ⟨err, ht⟩ | ⟨r, hr, ht⟩⟩ <;>
    · rw [ht]
      simp
  obtain ⟨e, he⟩ := List.exists_mem_of_ne_nil _ hne
  exact ⟨e, he, loopBody_owner P i lb s e he⟩

/-- When no call of an earlier iteration failed, the loop issues a call for
every selected element of the list. -/
theorem cleanLoop_reached {σ π : Type} (P : Provider σ π) (clusterTag : String)
    (L : List LoadBalancer) :
    ∀ (k i : Nat) (s : σ) (lb : LoadBalancer), L[k]? = some lb →
      mustBeDeleted lb clusterTag = true →
      (∀ e ∈ (cleanLoop P clusterTag i L s).trace, ∀ m < i + k, e.owner = some m →
        e.ok = true) →
      segment (cleanLoop P clusterTag i L s).trace (i + k) ≠ [] := by
  induction L with
  | nil => intro k i s lb hk; simp at hk
  | cons lb0 rest ih =>
    intro k i s lb hk hsel hok
    rcases k with _ | k
    · simp only [List.getElem?_cons_zero, Option.some.injEq] at hk
      subst hk
      obtain ⟨e, he, ho⟩ := loopBody_trace_ne_nil P i lb0 s
      rcases cleanLoop_cons_cases P clusterTag i lb0 rest s with ⟨hm, -⟩ | ⟨-, -, h⟩ | ⟨-, -, h⟩
      · rw [hm] at hsel
        exact absurd hsel (by simp)
      · rw [h]
        exact segment_ne_nil he ho
      · rw [h]
        exact segment_ne_nil (List.mem_append_left _ he) ho
    · simp only [List.getElem?_cons_succ] at hk
      have shift : i + (k + 1) = i + 1 + k := by omega
      rcases cleanLoop_cons_cases P clusterTag i lb0 rest s with ⟨-, h⟩ | ⟨-, hb, h⟩ | ⟨-, -, h⟩
      · rw [h] at hok ⊢
        rw [shift] at hok ⊢
        exact ih k (i + 1) s lb hk hsel hok
      · exfalso
        rw [h] at hok
        apply hb
        rw [loopBody_err_none_iff]
        intro e he
        exact hok e he i (by omega) (loopBody_owner P i lb0 s e he)
      · rw [h] at hok ⊢
        rw [shift] at hok ⊢
        have := ih k (i + 1) (loopBody P i lb0 s).state lb hk hsel
          (fun e he => hok e (List.mem_append_right _ he))
        obtain ⟨e, he, ho⟩ := exists_of_segment_ne_nil this
        exact segment_ne_nil (List.mem_append_right _ he) ho

/-- `Clean` issues a call for every selected load balancer that the loop
reaches. -/
theorem Clean_reached {σ π : Type} (P : Provider σ π) (clusterTag : String) (s : σ)
    (L : List LoadBalancer) (j : Nat) (lb : LoadBalancer)
    (hL : Listed (LoadBalancerCleaner.Clean P clusterTag s).trace L)
    (hj : L[j]? = some lb) (hsel : mustBeDeleted lb clusterTag = true)
    (hreach : Reached (LoadBalancerCleaner.Clean P clusterTag s).trace j) :
    segment (LoadBalancerCleaner.Clean P clusterTag s).trace j ≠ [] := by
  obtain ⟨hdone, hok⟩ := hreach
  rcases Clean_cases P clusterTag s with ⟨err, -, ht | ⟨L0, ht⟩⟩ |
    ⟨s1, s2, allPages, s3, L0, s4, -, -, -, -, -, h⟩
  · exfalso
    simp only [setupFailures, List.mem_cons, List.mem_singleton, List.not_mem_nil, or_false] at ht
    rcases ht with ht | ht | ht | ht <;>
    · rw [ht] at hdone
      simp at hdone
  · exfalso
    rw [ht] at hdone
    simp [setupDone] at hdone
  · have hL0 : Listed (LoadBalancerCleaner.Clean P clusterTag s).trace L0 := by
      rw [h]; simp [Listed, setupDone]
    have := Listed_unique P clusterTag s L L0 hL hL0
    subst this
    rw [h] at hok ⊢
    simp only at hok ⊢
    have hloop := cleanLoop_reached P clusterTag L j 0 s4 lb hj hsel (by
      intro e he m hm ho
      rw [Nat.zero_add] at hm
      exact hok e (List.mem_append_right _ he) m hm ho)
    rw [Nat.zero_add] at hloop
    obtain ⟨e, he, ho⟩ := exists_of_segment_ne_nil hloop
    exact segment_ne_nil (List.mem_append_right _ he) ho

/-! ## Selection (C1, C9) -/

/-- C1: `mustBeDeleted lb clusterTag` is true exactly when some tag of `lb` has
the string `"kube_service_" ++ clusterTag` as a prefix; it is false when
`lb.Tags` is empty and true when a tag equals the prefix. -/
theorem mustBeDeleted_spec (lb : LoadBalancer) (clusterTag : String) :
    (mustBeDeleted lb clusterTag = true ↔
      ∃ tag ∈ lb.Tags, ∃ rest : String, tag = "kube_service_" ++ clusterTag ++ rest) ∧
    (lb.Tags = [] → mustBeDeleted lb clusterTag = false) ∧
    ("kube_service_" ++ clusterTag ∈ lb.Tags → mustBeDeleted lb clusterTag = true) := by
  refine ⟨mustBeDeleted_iff lb clusterTag, ?_, ?_⟩
  · intro h
    rw [← Bool.not_eq_true, mustBeDeleted_iff, h]
    simp
  · intro h
    rw [mustBeDeleted_iff]
    exact ⟨_, h, "", by simp⟩

theorem mustBeDeleted_spec_witness :
    (mustBeDeleted ⟨"a", "", []⟩ "c1" = false) ∧
    (mustBeDeleted ⟨"a", "", ["x", "kube_service_c1"]⟩ "c1" = true) :=
  ⟨(mustBeDeleted_spec ⟨"a", "", []⟩ "c1").2.1 rfl,
   (mustBeDeleted_spec ⟨"a", "", ["x", "kube_service_c1"]⟩ "c1").2.2 (by decide)⟩

/-- C9: selection is monotone in the cluster tag: if `a` is a prefix of `b`,
whatever is selected for `b` is selected for `a`.  So a load balancer tagged
for cluster `prod2` is selected when cleaning `prod`, and with the empty
cluster tag every load balancer with a tag starting with `kube_service_` is
selected. -/
theorem mustBeDeleted_mono :
    (∀ (lb : LoadBalancer) (a b : String), (∃ r : String, b = a ++ r) →
      mustBeDeleted lb b = true → mustBeDeleted lb a = true) ∧
    (∀ lb : LoadBalancer, (∃ tag ∈ lb.Tags, ∃ rest : String, tag = "kube_service_prod2" ++ rest) →
      mustBeDeleted lb "prod" = true) ∧
    (∀ lb : LoadBalancer, mustBeDeleted lb "" = true ↔
      ∃ tag ∈ lb.Tags, ∃ rest : String, tag = "kube_service_" ++ rest) := by
  refine ⟨?_, ?_, ?_⟩
  · rintro lb a b ⟨r, rfl⟩ h
    rw [mustBeDeleted_iff] at h ⊢
    obtain ⟨tag, ht, rest, rfl⟩ := h
    exact ⟨_, ht, r ++ rest, by simp [String.append_assoc]⟩
  · rintro lb ⟨tag, ht, rest, rfl⟩
    rw [mustBeDeleted_iff]
    refine ⟨_, ht, "2" ++ rest, ?_⟩
    apply String.ext
    simp
  · intro lb
    rw [mustBeDeleted_iff]
    simp

theorem mustBeDeleted_mono_witness :
    mustBeDeleted ⟨"lb-1", "", ["kube_service_prod2_default_web"]⟩ "prod" = true ∧
    mustBeDeleted ⟨"lb-1", "", ["kube_service_prod2_default_web"]⟩ "" = true :=
  ⟨mustBeDeleted_mono.1 ⟨"lb-1", "", ["kube_service_prod2_default_web"]⟩ "prod" "prod2"
      ⟨"2", by decide⟩ (by decide),
   mustBeDeleted_mono.1 ⟨"lb-1", "", ["kube_service_prod2_default_web"]⟩ "" "prod2"
      ⟨"prod2", by decide⟩ (by decide)⟩

/-! ## Cascade, frame and error handling (C6, C3, C5) -/

/-- C6: every load-balancer delete call issued by `Clean` carries delete
options with `Cascade = true`, whatever the load balancer's VIP port or
floating IP. -/
theorem Clean_delete_cascade {σ π : Type} (P : Provider σ π) (clusterTag : String) (s : σ)
    (e : Event) (he : e ∈ (LoadBalancerCleaner.Clean P clusterTag s).trace)
    (id : String) (opts : DeleteOpts) (hc : e.call = .Delete id opts) :
    opts.Cascade = true := by
  obtain ⟨L, j, lb, s', -, -, -, hmem, -⟩ :=
    Clean_mem_perLB P clusterTag s e he (Or.inl (by simp [hc, Call.perLB]))
  exact loopBody_cascade P j lb s' e hmem id opts hc

theorem Clean_delete_cascade_witness :
    (⟨some 0, .Delete "a" ⟨true⟩, .done⟩ : Event) ∈
      (LoadBalancerCleaner.Clean Cloud.provider "c1" healthyCloud).trace ∧
    (⟨true⟩ : DeleteOpts).Cascade = true :=
  ⟨by decide,
   Clean_delete_cascade Cloud.provider "c1" healthyCloud ⟨some 0, .Delete "a" ⟨true⟩, .done⟩
     (by decide) "a" ⟨true⟩ rfl⟩

/-- C3: whatever the provider answers, every lookup, floating-IP mutation and
load-balancer delete that `Clean` issues is made in the iteration over a
listed load balancer that has a tag with the prefix, and on its behalf: the ID
deleted and the port looked up are its own, the floating IP mutated is the one
the lookup of its port returned. -/
theorem Clean_only_selected {σ π : Type} (P : Provider σ π) (clusterTag : String) (s : σ)
    (e : Event) (he : e ∈ (LoadBalancerCleaner.Clean P clusterTag s).trace)
    (hper : e.call.perLB = true) :
    ∃ L j lb, Listed (LoadBalancerCleaner.Clean P clusterTag s).trace L ∧
      e.owner = some j ∧ L[j]? = some lb ∧ lb ∈ L ∧ mustBeDeleted lb clusterTag = true ∧
      (∃ tag ∈ lb.Tags, ∃ rest : String, tag = "kube_service_" ++ clusterTag ++ rest) ∧
      OnBehalf lb (LoadBalancerCleaner.Clean P clusterTag s).trace e := by
  obtain ⟨L, j, lb, s', hL, hj, hm, hmem, hsub⟩ :=
    Clean_mem_perLB P clusterTag s e he (Or.inl hper)
  refine ⟨L, j, lb, hL, loopBody_owner P j lb s' e hmem, hj, ?_, hm,
    (mustBeDeleted_iff lb clusterTag).1 hm, ?_⟩
  · exact List.getElem?_mem hj
  · have h := loopBody_onBehalf P j lb s' e hmem
    unfold OnBehalf at h ⊢
    split at h
    · exact h
    · exact h
    · obtain ⟨fip, h1, h2⟩ := h
      exact ⟨fip, h1, hsub h2⟩
    · obtain ⟨fip, h1, h2⟩ := h
      exact ⟨fip, h1, hsub h2⟩
    · exact h

theorem Clean_only_selected_witness :
    (⟨some 2, .Delete "c" ⟨true⟩, .error "rejected"⟩ : Event) ∈
      (LoadBalancerCleaner.Clean Cloud.provider "c1" demoCloud).trace ∧
    ∃ L j lb, Listed (LoadBalancerCleaner.Clean Cloud.provider "c1" demoCloud).trace L ∧
      (some 2 : Option Nat) = some j ∧ L[j]? = some lb ∧ lb ∈ L ∧
      mustBeDeleted lb "c1" = true ∧
      (∃ tag ∈ lb.Tags, ∃ rest : String, tag = "kube_service_" ++ "c1" ++ rest) ∧
      OnBehalf lb (LoadBalancerCleaner.Clean Cloud.provider "c1" demoCloud).trace
        ⟨some 2, .Delete "c" ⟨true⟩, .error "rejected"⟩ :=
  ⟨by decide,
   Clean_only_selected Cloud.provider "c1" demoCloud ⟨some 2, .Delete "c" ⟨true⟩, .error "rejected"⟩
     (by decide) rfl⟩

/-- C5: `Clean` returns a non-nil error exactly when one of the calls it
issued failed; a failing call is the last call issued, so nothing is
processed after it and no call is issued again after it failed. -/
theorem Clean_error_iff_failed {σ π : Type} (P : Provider σ π) (clusterTag : String) (s : σ) :
    ((LoadBalancerCleaner.Clean P clusterTag s).err ≠ none ↔
      ∃ e ∈ (LoadBalancerCleaner.Clean P clusterTag s).trace, e.ok = false) ∧
    (∀ pre e post, (LoadBalancerCleaner.Clean P clusterTag s).trace = pre ++ e :: post →
      e.ok = false → post = [] ∧ ∀ x ∈ pre, x.ok = true) ∧
    (∀ pre e post, (LoadBalancerCleaner.Clean P clusterTag s).trace = pre ++ e :: post →
      e.ok = false → ∀ x ∈ post, x.call ≠ e.call) := by
  have hff := Clean_failFast P clusterTag s
  refine ⟨?_, ?_, ?_⟩
  · constructor
    · intro h
      rcases hff with ⟨h1, -⟩ | ⟨-, pre, e, h2, -, h4⟩
      · exact absurd h1 h
      · exact ⟨e, by rw [h2]; simp, h4⟩
    · rintro ⟨e, he, hf⟩
      obtain ⟨pre, post, hs⟩ := List.append_of_mem he
      exact (hff.last_of_failed pre e post hs hf).2
  · intro pre e post hs hf
    have hpost := (hff.last_of_failed pre e post hs hf).1
    refine ⟨hpost, ?_⟩
    intro x hx
    by_contra hx'
    simp only [Bool.not_eq_true] at hx'
    obtain ⟨a, b, hab⟩ := List.append_of_mem hx
    have := (hff.last_of_failed a x (b ++ e :: post) (by rw [hs, hab]; simp) hx').1
    simp at this
  · intro pre e post hs hf x hx
    rw [(hff.last_of_failed pre e post hs hf).1] at hx
    simp at hx

/-! ## What is deleted, and in which order (C2, C4, C7) -/

/-- C2, counterexample: with two listed entries of the same ID `a`, both
tagged, every call succeeds, `Clean` returns `nil`, and `a` is deleted twice,
not exactly once. -/
theorem Clean_deletes_twice :
    (∀ e ∈ (LoadBalancerCleaner.Clean Cloud.provider "c1" twinCloud).trace, e.ok = true) ∧
    (LoadBalancerCleaner.Clean Cloud.provider "c1" twinCloud).err = none ∧
    Listed (LoadBalancerCleaner.Clean Cloud.provider "c1" twinCloud).trace twinCloud.lbs ∧
    (deletedIDs (LoadBalancerCleaner.Clean Cloud.provider "c1" twinCloud).trace).count "a" = 2 := by
  refine ⟨by decide, by decide, by decide, by decide⟩

/-- C2, amended: if every call succeeds, `Clean` returns `nil` and the IDs of
the delete calls it issues are, in order, those of the listed load balancers
for which `mustBeDeleted` holds, one delete call per selected entry; an ID
carried by one selected entry is deleted exactly once. -/
theorem Clean_deletes_selected {σ π : Type} (P : Provider σ π) (clusterTag : String) (s : σ)
    (hok : ∀ e ∈ (LoadBalancerCleaner.Clean P clusterTag s).trace, e.ok = true) :
    (LoadBalancerCleaner.Clean P clusterTag s).err = none ∧
    ∃ L, Listed (LoadBalancerCleaner.Clean P clusterTag s).trace L ∧
      deletedIDs (LoadBalancerCleaner.Clean P clusterTag s).trace =
        (L.filter (fun lb => mustBeDeleted lb clusterTag)).map (fun lb => lb.ID) ∧
      ∀ id, ((L.filter (fun lb => mustBeDeleted lb clusterTag)).map (fun lb => lb.ID)).count id = 1 →
        (deletedIDs (LoadBalancerCleaner.Clean P clusterTag s).trace).count id = 1 := by
  have hnone : (LoadBalancerCleaner.Clean P clusterTag s).err = none := by
    rcases Clean_failFast P clusterTag s with ⟨h1, -⟩ | ⟨-, pre, e, h2, -, h4⟩
    · exact h1
    · have := hok e (by rw [h2]; simp)
      rw [h4] at this
      exact absurd this (by simp)
  refine ⟨hnone, ?_⟩
  rcases Clean_cases P clusterTag s with ⟨err, he, -⟩ |
    ⟨s1, s2, allPages, s3, L, s4, -, -, -, -, -, h⟩
  · rw [he] at hnone
    exact absurd hnone (by simp)
  · rw [h] at hnone
    simp only at hnone
    have hd : deletedIDs (LoadBalancerCleaner.Clean P clusterTag s).trace =
        (L.filter (fun lb => mustBeDeleted lb clusterTag)).map (fun lb => lb.ID) := by
      rw [h, ← cleanLoop_deletedIDs P clusterTag L 0 s4 hnone]
      simp [deletedIDs, setupDone]
    refine ⟨L, ?_, hd, ?_⟩
    · rw [h]
      simp [Listed, setupDone]
    · intro id hid
      rw [hd]
      exact hid

theorem Clean_deletes_selected_witness :
    (∀ e ∈ (LoadBalancerCleaner.Clean Cloud.provider "c1" healthyCloud).trace, e.ok = true) ∧
    (LoadBalancerCleaner.Clean Cloud.provider "c1" healthyCloud).err = none ∧
    deletedIDs (LoadBalancerCleaner.Clean Cloud.provider "c1" healthyCloud).trace = ["a", "c"] :=
  ⟨by decide,
   (Clean_deletes_selected Cloud.provider "c1" healthyCloud (by decide)).1,
   by decide⟩

/-- C4: when the lookup of a selected load balancer's port answers a floating
IP with a non-empty address, the calls `Clean` issues for that load balancer
are, in this order, the lookup, the disassociation and the deletion of that
address, and the cascading delete of the load balancer; each call is issued
only after the previous one succeeded, so the load balancer is never deleted
before both floating-IP calls have succeeded. -/
theorem Clean_fip_order {σ π : Type} (P : Provider σ π) (clusterTag : String) (s : σ)
    (j : Nat) (portID : String) (fip : FloatingIP)
    (hlook : (⟨some j, .GetFloatingIPByPortID portID, .floatingIP (some fip)⟩ : Event) ∈
      (LoadBalancerCleaner.Clean P clusterTag s).trace)
    (haddr : fip.FloatingIP ≠ "") :
    ∃ L lb, Listed (LoadBalancerCleaner.Clean P clusterTag s).trace L ∧ L[j]? = some lb ∧
      mustBeDeleted lb clusterTag = true ∧ portID = lb.VipPortID ∧
      ((∃ err, segment (LoadBalancerCleaner.Clean P clusterTag s).trace j =
          [⟨some j, .GetFloatingIPByPortID lb.VipPortID, .floatingIP (some fip)⟩,
           ⟨some j, .DisassociateFloatingIP fip.FloatingIP, .error err⟩]) ∨
       (∃ err, segment (LoadBalancerCleaner.Clean P clusterTag s).trace j =
          [⟨some j, .GetFloatingIPByPortID lb.VipPortID, .floatingIP (some fip)⟩,
           ⟨some j, .DisassociateFloatingIP fip.FloatingIP, .done⟩,
           ⟨some j, .DeleteFloatingIP fip.FloatingIP, .error err⟩]) ∨
       (∃ r, r.IsAck ∧ segment (LoadBalancerCleaner.Clean P clusterTag s).trace j =
          [⟨some j, .GetFloatingIPByPortID lb.VipPortID, .floatingIP (some fip)⟩,
           ⟨some j, .DisassociateFloatingIP fip.FloatingIP, .done⟩,
           ⟨some j, .DeleteFloatingIP fip.FloatingIP, .done⟩,
           ⟨some j, .Delete lb.ID ⟨true⟩, r⟩])) := by
  have hin : (⟨some j, .GetFloatingIPByPortID portID, .floatingIP (some fip)⟩ : Event) ∈
      segment (LoadBalancerCleaner.Clean P clusterTag s).trace j := by
    simp [segment, hlook]
  rcases Clean_segment P clusterTag s j with h0 | ⟨L, lb, s', hL, hj, hm, hseg⟩
  · rw [h0] at hin
    simp at hin
  · refine ⟨L, lb, hL, hj, hm, ?_⟩
    rw [hseg] at hin ⊢
    rcases loopBody_trace_cases P j lb s' with ⟨-, r, hr, ht⟩ | ⟨-, err, ht⟩ |
      ⟨-, f, r, hf, hr, ht⟩ | ⟨-, fip', -, ⟨err, ht⟩ | ⟨err, ht⟩ | ⟨r, hr, ht⟩⟩
    · rw [ht] at hin
      simp at hin
    · rw [ht] at hin
      simp at hin
    · rw [ht] at hin
      simp only [List.mem_cons, Event.mk.injEq, Call.GetFloatingIPByPortID.injEq,
        Resp.floatingIP.injEq, true_and, reduceCtorEq, and_false, false_and,
        List.not_mem_nil, or_false] at hin
      obtain ⟨-, hf'⟩ := hin
      subst hf'
      rcases hf with hf | ⟨fip'', hf1, hf2⟩
      · simp at hf
      · simp only [Option.some.injEq] at hf1
        subst hf1
        exact absurd hf2 haddr
    all_goals
      rw [ht] at hin ⊢
      simp only [List.mem_cons, Event.mk.injEq, Call.GetFloatingIPByPortID.injEq,
        Resp.floatingIP.injEq, Option.some.injEq, true_and, reduceCtorEq, and_false, false_and,
        List.not_mem_nil, or_false] at hin
      obtain ⟨hp, hfe⟩ := hin
      subst hfe
      refine ⟨hp, ?_⟩
    · exact Or.inl ⟨err, rfl⟩
    · exact Or.inr (Or.inl ⟨err, rfl⟩)
    · exact Or.inr (Or.inr ⟨r, hr, rfl⟩)

theorem Clean_fip_order_witness :
    segment (LoadBalancerCleaner.Clean Cloud.provider "c1" healthyCloud).trace 0 =
      [⟨some 0, .GetFloatingIPByPortID "p1", .floatingIP (some ⟨"f1", "10.0.0.1"⟩)⟩,
       ⟨some 0, .DisassociateFloatingIP "10.0.0.1", .done⟩,
       ⟨some 0, .DeleteFloatingIP "10.0.0.1", .done⟩,
       ⟨some 0, .Delete "a" ⟨true⟩, .done⟩] ∧
    ∃ L lb, Listed (LoadBalancerCleaner.Clean Cloud.provider "c1" healthyCloud).trace L ∧
      L[0]? = some lb ∧ "p1" = lb.VipPortID :=
  ⟨by decide,
   (Clean_fip_order Cloud.provider "c1" healthyCloud 0 "p1" ⟨"f1", "10.0.0.1"⟩
      (by decide) (by decide)).elim
     (fun L h => h.elim (fun lb h' => ⟨L, lb, h'.1, h'.2.1, h'.2.2.2.1⟩))⟩

/-- C7, counterexample: the lookup for the first load balancer answers a
floating IP with a non-empty address, the disassociation fails, and no
floating-IP delete is issued; the second selected load balancer has a
non-empty VIP port and no lookup is issued for it. -/
theorem Clean_fip_delete_not_issued :
    Listed (LoadBalancerCleaner.Clean Cloud.provider "c1" stuckCloud).trace
      [⟨"a", "p1", ["kube_service_c1"]⟩, ⟨"c", "p2", ["kube_service_c1"]⟩] ∧
    mustBeDeleted ⟨"a", "p1", ["kube_service_c1"]⟩ "c1" = true ∧
    mustBeDeleted ⟨"c", "p2", ["kube_service_c1"]⟩ "c1" = true ∧
    (⟨some 0, .GetFloatingIPByPortID "p1", .floatingIP (some ⟨"f1", "10.0.0.1"⟩)⟩ : Event) ∈
      (LoadBalancerCleaner.Clean Cloud.provider "c1" stuckCloud).trace ∧
    (∀ e ∈ (LoadBalancerCleaner.Clean Cloud.provider "c1" stuckCloud).trace,
      e.call ≠ .DeleteFloatingIP "10.0.0.1") ∧
    (∀ e ∈ (LoadBalancerCleaner.Clean Cloud.provider "c1" stuckCloud).trace,
      e.call ≠ .GetFloatingIPByPortID "p2") := by
  refine ⟨by decide, by decide, by decide, by decide, by decide, by decide⟩

/-- C7, amended: for a selected load balancer that the loop reaches (the
set-up went through and no call of an earlier iteration failed), the lookup is
issued exactly when its VIP port is non-empty; the disassociation is issued
exactly when the lookup answered a floating IP with a non-empty address; the
floating-IP delete is issued exactly when, in addition, the disassociation
succeeded; and when the port is empty or the lookup answered nil or an empty
address, the load balancer delete is issued and no floating-IP mutation is. -/
theorem Clean_fip_steps {σ π : Type} (P : Provider σ π) (clusterTag : String) (s : σ)
    (L : List LoadBalancer) (j : Nat) (lb : LoadBalancer)
    (hL : Listed (LoadBalancerCleaner.Clean P clusterTag s).trace L)
    (hj : L[j]? = some lb) (hsel : mustBeDeleted lb clusterTag = true)
    (hreach : Reached (LoadBalancerCleaner.Clean P clusterTag s).trace j) :
    ((∃ e ∈ segment (LoadBalancerCleaner.Clean P clusterTag s).trace j,
        ∃ portID, e.call = .GetFloatingIPByPortID portID) ↔ lb.VipPortID ≠ "") ∧
    ((∃ e ∈ segment (LoadBalancerCleaner.Clean P clusterTag s).trace j,
        ∃ ip, e.call = .DisassociateFloatingIP ip) ↔
      ∃ fip : FloatingIP, fip.FloatingIP ≠ "" ∧
        (⟨some j, .GetFloatingIPByPortID lb.VipPortID, .floatingIP (some fip)⟩ : Event) ∈
          segment (LoadBalancerCleaner.Clean P clusterTag s).trace j) ∧
    ((∃ e ∈ segment (LoadBalancerCleaner.Clean P clusterTag s).trace j,
        ∃ ip, e.call = .DeleteFloatingIP ip) ↔
      ∃ fip : FloatingIP, fip.FloatingIP ≠ "" ∧
        (⟨some j, .GetFloatingIPByPortID lb.VipPortID, .floatingIP (some fip)⟩ : Event) ∈
          segment (LoadBalancerCleaner.Clean P clusterTag s).trace j ∧
        (⟨some j, .DisassociateFloatingIP fip.FloatingIP, .done⟩ : Event) ∈
          segment (LoadBalancerCleaner.Clean P clusterTag s).trace j) ∧
    ((lb.VipPortID = "" ∨
      (⟨some j, .GetFloatingIPByPortID lb.VipPortID, .floatingIP none⟩ : Event) ∈
        segment (LoadBalancerCleaner.Clean P clusterTag s).trace j ∨
      ∃ fip : FloatingIP, fip.FloatingIP = "" ∧
        (⟨some j, .GetFloatingIPByPortID lb.VipPortID, .floatingIP (some fip)⟩ : Event) ∈
          segment (LoadBalancerCleaner.Clean P clusterTag s).trace j) →
      (∃ r : Resp, r.IsAck ∧ (⟨some j, .Delete lb.ID ⟨true⟩, r⟩ : Event) ∈
        segment (LoadBalancerCleaner.Clean P clusterTag s).trace j) ∧
      ∀ e ∈ segment (LoadBalancerCleaner.Clean P clusterTag s).trace j, ∀ ip,
        e.call ≠ .DisassociateFloatingIP ip ∧ e.call ≠ .DeleteFloatingIP ip) := by
  rcases Clean_segment P clusterTag s j with h0 | ⟨L', lb', s', hL', hj', -, hseg⟩
  · exact absurd h0 (Clean_reached P clusterTag s L j lb hL hj hsel hreach)
  · have hLL := Listed_unique P clusterTag s L L' hL hL'
    subst hLL
    rw [hj] at hj'
    simp only [Option.some.injEq] at hj'
    subst hj'
    rw [hseg]
    rcases loopBody_trace_cases P j lb s' with ⟨hp, r, hr, ht⟩ | ⟨hp, err, ht⟩ |
      ⟨hp, f, r, hf, hr, ht⟩ | ⟨hp, fip', ha, ⟨err, ht⟩ | ⟨err, ht⟩ | ⟨r, hr, ht⟩⟩
    · rw [ht]
      simp [hp]
      exact hr
    · rw [ht]
      simp [hp]
    · rw [ht]
      rcases hf with rfl | ⟨fip'', rfl, hf2⟩
      · simp [hp]
        exact hr
      · simp [hp]
        exact ⟨hf2, fun _ => hr⟩
    · rw [ht]
      simp [hp, ha]
    · rw [ht]
      simp [hp, ha]
      exact ⟨fip', ha, rfl, rfl⟩
    · rw [ht]
      simp [hp, ha]
      exact ⟨fip', ha, rfl, rfl⟩

theorem Clean_fip_steps_witness :
    Listed (LoadBalancerCleaner.Clean Cloud.provider "c1" healthyCloud).trace healthyCloud.lbs ∧
    Reached (LoadBalancerCleaner.Clean Cloud.provider "c1" healthyCloud).trace 2 ∧
    ((∃ r : Resp, r.IsAck ∧ (⟨some 2, .Delete "c" ⟨true⟩, r⟩ : Event) ∈
        segment (LoadBalancerCleaner.Clean Cloud.provider "c1" healthyCloud).trace 2) ∧
      ∀ e ∈ segment (LoadBalancerCleaner.Clean Cloud.provider "c1" healthyCloud).trace 2, ∀ ip,
        e.call ≠ .DisassociateFloatingIP ip ∧ e.call ≠ .DeleteFloatingIP ip) :=
  ⟨by decide, by decide,
   (Clean_fip_steps Cloud.provider "c1" healthyCloud healthyCloud.lbs 2
      ⟨"c", "", ["kube_service_c1"]⟩ (by decide) (by decide) (by decide)
      (by decide)).2.2.2 (Or.inl rfl)⟩

/-! ## Partial cleanup on error (C8) -/

/-- C8, counterexample: with a provider whose rejected disassociation has
already detached the floating IP, `Clean` returns an error, its failing call is
the last one after calls that all succeeded, and the provider state is not the
one reached by that successful prefix of calls: the floating IP is
detached. -/
theorem Clean_state_not_prefix :
    (LoadBalancerCleaner.Clean Cloud.leaky "c1" stuckCloud).err ≠ none ∧
    (∀ x ∈ (LoadBalancerCleaner.Clean Cloud.leaky "c1" stuckCloud).trace.dropLast,
      x.ok = true) ∧
    (LoadBalancerCleaner.Clean Cloud.leaky "c1" stuckCloud).trace.getLast? =
      some ⟨some 0, .DisassociateFloatingIP "10.0.0.1", .error "rejected"⟩ ∧
    (LoadBalancerCleaner.Clean Cloud.leaky "c1" stuckCloud).state ≠
      Cloud.leaky.replay stuckCloud
        ((LoadBalancerCleaner.Clean Cloud.leaky "c1" stuckCloud).trace.dropLast.map
          (fun x => x.call)) ∧
    (LoadBalancerCleaner.Clean Cloud.leaky "c1" stuckCloud).state.fips =
      [("", ⟨"f1", "10.0.0.1"⟩)] := by
  refine ⟨by decide, by decide, by decide, by decide, by decide⟩

/-- C8, amended: `Clean` is not atomic.  On the example inventory it returns
an error after the floating IP and the first selected load balancer were
deleted, and they stay deleted in the provider state.  In general a failed run
ends with its failing call, after calls that all succeeded: nothing is issued
after the failure, so nothing is undone; the provider state is the one reached
by the calls issued, the failing one included, and it is the one reached by
the successful calls before the failure when failing calls leave the provider
as it was. -/
theorem Clean_not_atomic :
    ((LoadBalancerCleaner.Clean Cloud.provider "c1" demoCloud).err ≠ none ∧
      (⟨some 0, .DeleteFloatingIP "10.0.0.1", .done⟩ : Event) ∈
        (LoadBalancerCleaner.Clean Cloud.provider "c1" demoCloud).trace ∧
      (⟨some 0, .Delete "a" ⟨true⟩, .done⟩ : Event) ∈
        (LoadBalancerCleaner.Clean Cloud.provider "c1" demoCloud).trace ∧
      (LoadBalancerCleaner.Clean Cloud.provider "c1" demoCloud).state.lbs =
        [⟨"b", "", ["other"]⟩, ⟨"c", "", ["kube_service_c1"]⟩] ∧
      (LoadBalancerCleaner.Clean Cloud.provider "c1" demoCloud).state.fips = []) ∧
    (∀ {σ π : Type} (P : Provider σ π) (clusterTag : String) (s : σ),
      (LoadBalancerCleaner.Clean P clusterTag s).err ≠ none →
      ∃ pre e, (LoadBalancerCleaner.Clean P clusterTag s).trace = pre ++ [e] ∧
        (∀ x ∈ pre, x.ok = true) ∧ e.ok = false ∧
        (LoadBalancerCleaner.Clean P clusterTag s).state =
          P.replay s ((pre ++ [e]).map (fun x => x.call)) ∧
        (P.FailuresPure → (LoadBalancerCleaner.Clean P clusterTag s).state =
          P.replay s (pre.map (fun x => x.call)))) := by
  refine ⟨⟨by decide, by decide, by decide, by decide, by decide⟩, ?_⟩
  intro σ π P clusterTag s herr
  rcases Clean_failFast P clusterTag s with ⟨h1, -⟩ | ⟨-, pre, e, h2, h3, h4⟩
  · exact absurd h1 herr
  · refine ⟨pre, e, h2, h3, h4, ?_, ?_⟩
    · rw [← h2]
      exact Clean_replay P clusterTag s
    · intro hP
      have := Clean_replay_failed P hP clusterTag s herr
      rw [h2] at this
      simpa using this

theorem Clean_not_atomic_witness :
    (LoadBalancerCleaner.Clean Cloud.provider "c1" demoCloud).err ≠ none ∧
    ∃ pre e, (LoadBalancerCleaner.Clean Cloud.provider "c1" demoCloud).trace = pre ++ [e] ∧
      e.ok = false ∧
      (LoadBalancerCleaner.Clean Cloud.provider "c1" demoCloud).state =
        Cloud.provider.replay demoCloud (pre.map (fun x => x.call)) :=
  ⟨by decide,
   (Clean_not_atomic.2 Cloud.provider "c1" demoCloud (by decide)).elim
     (fun pre h => h.elim (fun e h' =>
       ⟨pre, e, h'.1, h'.2.2.1, h'.2.2.2.2 Cloud.provider_failuresPure⟩))⟩

/-! ## Idempotence (C10) -/

/-- C10: over a provider whose listing returns its inventory, whose successful
delete removes the load balancers of the given ID and in which no call adds a
load balancer, a run of `Clean` that returned `nil` leaves no selected load
balancer; a second run with the same cluster tag from the state reached lists
no selected load balancer, issues set-up calls only (no lookup, no mutation)
and returns `nil` once its set-up is through.  More generally, for any
provider, when no listed load balancer is selected `Clean` issues set-up calls
only and returns `nil` once the set-up is through. -/
theorem Clean_idempotent :
    (∀ {σ π : Type} (P : Provider σ π) (inv : σ → List LoadBalancer) (clusterTag : String)
        (s : σ), P.RemovesDeleted inv →
        (LoadBalancerCleaner.Clean P clusterTag s).err = none →
      (∀ x ∈ inv (LoadBalancerCleaner.Clean P clusterTag s).state,
        mustBeDeleted x clusterTag = false) ∧
      (∀ L, Listed (LoadBalancerCleaner.Clean P clusterTag
            (LoadBalancerCleaner.Clean P clusterTag s).state).trace L →
        ∀ lb ∈ L, mustBeDeleted lb clusterTag = false) ∧
      (∀ e ∈ (LoadBalancerCleaner.Clean P clusterTag
            (LoadBalancerCleaner.Clean P clusterTag s).state).trace,
        e.owner = none ∧ e.call.perLB = false) ∧
      ((⟨none, .NewService, .done⟩ : Event) ∈ (LoadBalancerCleaner.Clean P clusterTag
            (LoadBalancerCleaner.Clean P clusterTag s).state).trace →
        (LoadBalancerCleaner.Clean P clusterTag
            (LoadBalancerCleaner.Clean P clusterTag s).state).err = none)) ∧
    (∀ {σ π : Type} (P : Provider σ π) (clusterTag : String) (s : σ) (L : List LoadBalancer),
      Listed (LoadBalancerCleaner.Clean P clusterTag s).trace L →
      (∀ lb ∈ L, mustBeDeleted lb clusterTag = false) →
      (∀ e ∈ (LoadBalancerCleaner.Clean P clusterTag s).trace,
        e.owner = none ∧ e.call.perLB = false) ∧
      ((⟨none, .NewService, .done⟩ : Event) ∈ (LoadBalancerCleaner.Clean P clusterTag s).trace →
        (LoadBalancerCleaner.Clean P clusterTag s).err = none)) := by
  refine ⟨?_, ?_⟩
  · intro σ π P inv clusterTag s hP herr
    have h1 := Clean_leaves_unselected P inv hP clusterTag s herr
    have h2 : ∀ L, Listed (LoadBalancerCleaner.Clean P clusterTag
          (LoadBalancerCleaner.Clean P clusterTag s).state).trace L →
        ∀ lb ∈ L, mustBeDeleted lb clusterTag = false := by
      intro L hL lb hlb
      obtain ⟨t, ht, hsub⟩ := Clean_listed_inv P inv hP clusterTag _ L hL
      rw [ht] at hlb
      exact h1 lb (hsub lb hlb)
    refine ⟨h1, h2, ?_, ?_⟩
    · intro e he
      by_cases hper : e.call.perLB = true ∨ e.owner ≠ none
      · obtain ⟨L, j, lb, s', hL, -, -, -, -⟩ := Clean_mem_perLB P clusterTag _ e he hper
        exact (Clean_nothing_selected P clusterTag _ L hL (h2 L hL)).1 e he
      · simp only [not_or, Bool.not_eq_true, ne_eq, not_not] at hper
        exact ⟨hper.2, hper.1⟩
    · intro hdone
      rcases Clean_cases P clusterTag (LoadBalancerCleaner.Clean P clusterTag s).state with
        ⟨err, -, ht | ⟨L0, ht⟩⟩ | ⟨s1, s2, allPages, s3, L0, s4, -, -, -, -, -, h⟩
      · exfalso
        simp only [setupFailures, List.mem_cons, List.mem_singleton, List.not_mem_nil,
          or_false] at ht
        rcases ht with ht | ht | ht | ht <;>
        · rw [ht] at hdone
          simp at hdone
      · exfalso
        rw [ht] at hdone
        simp [setupDone] at hdone
      · have hL0 : Listed (LoadBalancerCleaner.Clean P clusterTag
            (LoadBalancerCleaner.Clean P clusterTag s).state).trace L0 := by
          rw [h]; simp [Listed, setupDone]
        exact (Clean_nothing_selected P clusterTag _ L0 hL0 (h2 L0 hL0)).2 hdone
  · intro σ π P clusterTag s L hL hsel
    exact Clean_nothing_selected P clusterTag s L hL hsel

theorem Clean_idempotent_witness :
    (LoadBalancerCleaner.Clean Cloud.provider "c1" healthyCloud).err = none ∧
    (∀ e ∈ (LoadBalancerCleaner.Clean Cloud.provider "c1"
          (LoadBalancerCleaner.Clean Cloud.provider "c1" healthyCloud).state).trace,
      e.owner = none ∧ e.call.perLB = false) ∧
    (LoadBalancerCleaner.Clean Cloud.provider "c1"
      (LoadBalancerCleaner.Clean Cloud.provider "c1" healthyCloud).state).err = none :=
  ⟨by decide,
   (Clean_idempotent.1 Cloud.provider Cloud.lbs "c1" healthyCloud
      Cloud.provider_removesDeleted (by decide)).2.2.1,
   (Clean_idempotent.1 Cloud.provider Cloud.lbs "c1" healthyCloud
      Cloud.provider_removesDeleted (by decide)).2.2.2 (by decide)⟩

end cleaner
